import Mathlib

/-!
# gcs-intro: upload benchmark drivers

A shallow embedding of `multiconnection/gcs-intro/main.go`.

* The storage client (`NewGcsClient`, `UploadObject`, `NewUploadSession`,
  `UploadObjectPart`, `GetResumeOffset`), `makeRandBuf` and `math.Sqrt` are not part
  of `main.go`; they are the fields of `Env`.  A storage answer may depend on the
  whole history of calls made so far (the call being answered is the last entry),
  which covers every deterministic stub and every single run of a real service.
* The drivers thread a `World`: the calls made so far and the lines printed so far.
* `float64` is an arbitrary division ring `α`; the theorems about the statistics
  take `α := ℝ` and `sqrt := Real.sqrt`.
* `int` and `int64` are 64-bit, in two-complement form: `int64` wraps an integer.
* The size loop carries fuel; `none` means that the fuel ran out.
-/

namespace GcsIntro

/-! ## Data model -/

/-- A Go `error` value.  `errors.New` and `fmt.Errorf` allocate fresh values, so they
are distinct from whatever the storage client returns (`external`). -/
inductive GoError (ε : Type) where
  | errorsNew (msg : String)
  | errorf (msg : String)
  | external (e : ε)
  deriving DecidableEq, Repr

/-- One call to the storage capability, with its arguments (`ctx` left out). -/
inductive Call (β : Type) where
  | newGcsClient
  | uploadObject (bucket name : String) (buf : β)
  | newUploadSession (bucket name : String)
  | uploadObjectPart (uploadUrl : String) (off : Int) (buf : β) (last : Bool)
  | getResumeOffset (uploadUrl : String)
  deriving DecidableEq, Repr

/-- The arguments of the `fmt.Printf` that reports one size. -/
structure ResultLine (α : Type) where
  sizeMiB : Int
  meanSpeed : α
  sigma : α
  deriving DecidableEq, Repr

/-- Everything observable about a run so far. -/
structure World (α β : Type) where
  calls : List (Call β)
  out : List (ResultLine α)
  deriving DecidableEq, Repr

/-- What `main.go` calls but does not define. -/
structure Env (ε α β : Type) where
  sqrt : α → α
  makeRandBuf : Int → β
  newGcsClient : List (Call β) → Except ε Unit
  uploadObject : List (Call β) → Except ε α
  newUploadSession : List (Call β) → Except ε String
  uploadObjectPart : List (Call β) → Except ε α
  getResumeOffset : List (Call β) → Except ε (Int × Bool)

/-- Wrap-around of a 64-bit signed integer. -/
def int64 (x : Int) : Int := (x + 2 ^ 63) % 2 ^ 64 - 2 ^ 63

/-- The constant `runs`. -/
def runs : Int := 16

/-- The constant `minSize`, `1 << 20`. -/
def minSize : Int := 2 ^ 20

/-- The constant `maxSize`, `128 << 20`. -/
def maxSize : Int := 128 * 2 ^ 20

/-- The world after one more call. -/
def World.log {α β : Type} (w : World α β) (c : Call β) : World α β :=
  { w with calls := w.calls ++ [c] }

/-- The world after one more printed line. -/
def World.print {α β : Type} (w : World α β) (l : ResultLine α) : World α β :=
  { w with out := w.out ++ [l] }

/-- The world before anything happened. -/
def World.init {α β : Type} : World α β := { calls := [], out := [] }

/-! ## Statistics (lines 66-77 and 147-158, the same text in both drivers) -/

/-- The pair `(meanSpeed, sigma)` computed from `size/minSize` and the durations. -/
def statistics {α : Type} [DivisionRing α] (sqrt : α → α) (units : Int)
    (durations : List α) : α × α :=
  let meanTime : α := durations.foldl (fun acc d => acc + d) 0
  let meanTime : α := meanTime / (durations.length : α)
  let meanSpeed : α := (units : α) / meanTime
  let sigma : α := durations.foldl
    (fun acc d => let diff := meanSpeed - (units : α) / d; acc + diff * diff) 0
  let sigma : α := sqrt (sigma / (durations.length : α))
  (meanSpeed, sigma)

/-- The line printed for one size. -/
def resultLine {α : Type} [DivisionRing α] (sqrt : α → α) (size : Int)
    (durations : List α) : ResultLine α :=
  let r := statistics sqrt (Int.tdiv size minSize) durations
  { sizeMiB := Int.tdiv size minSize, meanSpeed := r.1, sigma := r.2 }

/-! ## The size loop (lines 54 and 116, the same loop header in both drivers) -/

/-- The loop `for size := minSize; size <= maxSize; size <<= 1`, from `size` on, around a
body that returns the error of its early `return`, if any. -/
def sizeLoop {ε α β : Type} (body : Int → World α β → World α β × Option (GoError ε)) :
    Nat → Int → World α β → Option (World α β × Option (GoError ε))
  | 0, _, _ => none
  | fuel + 1, size, w =>
    if size ≤ maxSize then
      match body size w with
      | (w1, some e) => some (w1, some e)
      | (w1, none) => sizeLoop body fuel (int64 (size * 2)) w1
    else some (w, none)

/-! ## runUploadObj -/

/-- The object name of run `i` at `size`: `fmt.Sprintf("x-%d-%d", size/minSize, i)`. -/
def objName (size i : Int) : String :=
  "x-" ++ toString (Int.tdiv size minSize) ++ "-" ++ toString i

/-- The call to `UploadObject` of run `i` at `size`. -/
def objCall {β : Type} (bucket : String) (size : Int) (buf : β) (i : Int) : Call β :=
  .uploadObject bucket (objName size i) buf

/-- The run loop of `runUploadObj` (lines 58-64): `n` iterations starting at index `i`;
the source runs `uploadLoop ... 16 0 []`. -/
def uploadLoop {ε α β : Type} (g : Env ε α β) (bucket : String) (size : Int) (buf : β) :
    Nat → Int → List α → World α β → World α β × Except (GoError ε) (List α)
  | 0, _, durations, w => (w, .ok durations)
  | n + 1, i, durations, w =>
    let w1 := w.log (objCall bucket size buf i)
    match g.uploadObject w1.calls with
    | .error e => (w1, .error (.external e))
    | .ok d => uploadLoop g bucket size buf n (i + 1) (durations ++ [d]) w1

/-- The body of the size loop of `runUploadObj` (lines 55-80). -/
def objSizeBody {ε α β : Type} [DivisionRing α] (g : Env ε α β) (bucket : String)
    (size : Int) (w : World α β) : World α β × Option (GoError ε) :=
  let buf := g.makeRandBuf size
  match uploadLoop g bucket size buf runs.toNat 0 [] w with
  | (w1, .error e) => (w1, some e)
  | (w1, .ok durations) => (w1.print (resultLine g.sqrt size durations), none)

/-- The size loop of `runUploadObj` (line 54), from `size` on. -/
def objSizeLoop {ε α β : Type} [DivisionRing α] (g : Env ε α β) (bucket : String)
    (fuel : Nat) (size : Int) (w : World α β) : Option (World α β × Option (GoError ε)) :=
  sizeLoop (objSizeBody g bucket) fuel size w

/-- The command `obj` (lines 38-84): the final world and the returned error. -/
def runUploadObj {ε α β : Type} [DivisionRing α] (g : Env ε α β) (bucket : String)
    (fuel : Nat) : Option (World α β × Option (GoError ε)) :=
  if bucket = "" then
    some (World.init, some (.errorsNew "destination bucket must be specified"))
  else
    let w := (World.init : World α β).log .newGcsClient
    match g.newGcsClient w.calls with
    | .error e => some (w, some (.external e))
    | .ok _ => objSizeLoop g bucket fuel minSize w

/-! ## runUploadMultipartObj -/

/-- The object name of the session at `size`: `fmt.Sprintf("x-%d", size/minSize)`. -/
def sessionName (size : Int) : String :=
  "x-" ++ toString (Int.tdiv size minSize)

/-- The local variables of the chunk loop. -/
structure ChunkVars (α : Type) where
  off : Int
  durations : List α
  deriving DecidableEq, Repr

/-- The chunk loop of `runUploadMultipartObj` (lines 127-146): `n` iterations starting
at index `i`; the source runs `chunkLoop ... 16 0 ⟨0, []⟩`. -/
def chunkLoop {ε α β : Type} (g : Env ε α β) (uploadUrl : String) (size : Int) (buf : β) :
    Nat → Int → ChunkVars α → World α β → World α β × Except (GoError ε) (ChunkVars α)
  | 0, _, v, w => (w, .ok v)
  | n + 1, i, v, w =>
    let w1 := w.log (.uploadObjectPart uploadUrl v.off buf (decide (i = runs - 1)))
    match g.uploadObjectPart w1.calls with
    | .error e => (w1, .error (.external e))
    | .ok d =>
      let durations := v.durations ++ [d]
      let off := int64 (v.off + int64 size)
      let w2 := w1.log (.getResumeOffset uploadUrl)
      match g.getResumeOffset w2.calls with
      | .error e => (w2, .error (.external e))
      | .ok (testOff, testLast) =>
        if testOff ≠ off then
          (w2, .error (.errorf
            ("unexpected offset: got " ++ toString testOff ++ ", want " ++ toString off)))
        else if testLast ≠ decide (i = runs - 1) then
          (w2, .error (.errorf
            ("unexpected last part flag: got " ++ toString testLast ++ ", want "
              ++ toString (decide (i = runs - 1)))))
        else chunkLoop g uploadUrl size buf n (i + 1) ⟨off, durations⟩ w2

/-- The body of the size loop of `runUploadMultipartObj` (lines 118-161). -/
def mobjSizeBody {ε α β : Type} [DivisionRing α] (g : Env ε α β) (bucket : String)
    (size : Int) (w : World α β) : World α β × Option (GoError ε) :=
  let w1 := w.log (.newUploadSession bucket (sessionName size))
  match g.newUploadSession w1.calls with
  | .error e => (w1, some (.external e))
  | .ok uploadUrl =>
    let buf := g.makeRandBuf size
    match chunkLoop g uploadUrl size buf runs.toNat 0 ⟨0, []⟩ w1 with
    | (w2, .error e) => (w2, some e)
    | (w2, .ok v) => (w2.print (resultLine g.sqrt size v.durations), none)

/-- The size loop of `runUploadMultipartObj` (line 116), from `size` on. -/
def mobjSizeLoop {ε α β : Type} [DivisionRing α] (g : Env ε α β) (bucket : String)
    (fuel : Nat) (size : Int) (w : World α β) : Option (World α β × Option (GoError ε)) :=
  sizeLoop (mobjSizeBody g bucket) fuel size w

/-- The command `mobj` (lines 100-165): the final world and the returned error. -/
def runUploadMultipartObj {ε α β : Type} [DivisionRing α] (g : Env ε α β)
    (bucket : String) (fuel : Nat) : Option (World α β × Option (GoError ε)) :=
  if bucket = "" then
    some (World.init, some (.errorsNew "destination bucket must be specified"))
  else
    let w := (World.init : World α β).log .newGcsClient
    match g.newGcsClient w.calls with
    | .error e => some (w, some (.external e))
    | .ok _ => mobjSizeLoop g bucket fuel minSize w

/-! ## Expected call sequences of the resumable driver -/

/-- The call to `UploadObjectPart` for chunk `m` of a consistent session. -/
def partCall {β : Type} (uploadUrl : String) (size : Int) (buf : β) (m : Nat) : Call β :=
  .uploadObjectPart uploadUrl ((m : Int) * size) buf (decide (m = 15))

/-- The calls of chunks `i, ..., i+n-1` of a consistent session: for each chunk one
`UploadObjectPart` and one `GetResumeOffset`. -/
def chunkCalls {β : Type} (uploadUrl : String) (size : Int) (buf : β) (i n : Nat) :
    List (Call β) :=
  ((List.range' i n).map
    (fun m => [partCall uploadUrl size buf m, .getResumeOffset uploadUrl])).flatten

/-- The call to `NewUploadSession` at `size`. -/
def sessionCall {β : Type} (bucket : String) (size : Int) : Call β :=
  .newUploadSession bucket (sessionName size)

/-- Starting from history `h`, each of the chunks `0, ..., k-1` is uploaded without
error (taking `d m`) and its offset query answers the local state:
offset `(m+1) * size` and final flag `m = 15`. -/
def ChunksConsistent {ε α β : Type} (g : Env ε α β) (uploadUrl : String) (size : Int)
    (buf : β) (h : List (Call β)) (d : Nat → α) (k : Nat) : Prop :=
  ∀ m, m < k →
    g.uploadObjectPart (h ++ chunkCalls uploadUrl size buf 0 m ++ [partCall uploadUrl size buf m])
        = .ok (d m) ∧
    g.getResumeOffset (h ++ chunkCalls uploadUrl size buf 0 (m + 1))
        = .ok (((m + 1 : Nat) : Int) * size, decide (m = 15))

/-- Is the call an `UploadObjectPart`? -/
def Call.isPart {β : Type} : Call β → Bool
  | .uploadObjectPart _ _ _ _ => true
  | _ => false

/-- Is the call a `GetResumeOffset`? -/
def Call.isOffset {β : Type} : Call β → Bool
  | .getResumeOffset _ => true
  | _ => false

/-- Is the call an `UploadObject`? -/
def Call.isObject {β : Type} : Call β → Bool
  | .uploadObject _ _ _ => true
  | _ => false

/-! ## The sweep and the expected calls of the single-shot driver -/

/-- The size of the sweep step with index `t`: `minSize` doubled `t` times. -/
def sweepSize (t : Nat) : Int := minSize * 2 ^ t

/-- The sizes of the sweep as the spec lists them: 1, 2, 4, ..., 128 MiB. -/
def sweepSizes : List Int := [1, 2, 4, 8, 16, 32, 64, 128].map (fun u => u * 2 ^ 20)

/-- Running a loop body for each size of a list in order, stopping at the first error. -/
def forEachSize {ε α β : Type} (body : Int → World α β → World α β × Option (GoError ε)) :
    List Int → World α β → World α β × Option (GoError ε)
  | [], w => (w, none)
  | size :: rest, w =>
    match body size w with
    | (w1, some e) => (w1, some e)
    | (w1, none) => forEachSize body rest w1

/-- The calls to `UploadObject` of runs `i, ..., i+n-1` at one size. -/
def objCalls {β : Type} (bucket : String) (size : Int) (buf : β) (i n : Nat) :
    List (Call β) :=
  (List.range' i n).map (fun (m : Nat) => objCall bucket size buf (m : Int))

/-- The calls to `UploadObject` of the complete sweep steps `s, ..., s+j-1`. -/
def sweepCalls {ε α β : Type} (g : Env ε α β) (bucket : String) (s j : Nat) :
    List (Call β) :=
  ((List.range' s j).map
    (fun t => objCalls bucket (sweepSize t) (g.makeRandBuf (sweepSize t)) 0 16)).flatten

/-- Uploads of a sweep of `runUploadObj` started from history `h`: every run of the
steps `0..j-1` and the runs `0..k-1` of step `j` are answered (run `m` of step `t`
takes `d t m`). -/
def UploadsOk {ε α β : Type} (g : Env ε α β) (bucket : String) (h : List (Call β))
    (d : Nat → Nat → α) (j k : Nat) : Prop :=
  ∀ t m, (t < j ∧ m < 16) ∨ (t = j ∧ m < k) →
    g.uploadObject (h ++ sweepCalls g bucket 0 t
      ++ objCalls bucket (sweepSize t) (g.makeRandBuf (sweepSize t)) 0 (m + 1)) = .ok (d t m)

/-- The object name of a call to `UploadObject`. -/
def Call.objectName? {β : Type} : Call β → Option String
  | .uploadObject _ name _ => some name
  | _ => none

/-- The object names of a complete sweep of `runUploadObj`, in upload order. -/
def sweepNames : List String :=
  (sweepSizes.map (fun s => (List.range 16).map (fun (i : Nat) => objName s (i : Int)))).flatten

/-! ## Statistics: the formulas of the spec -/

/-- Spec: `units / mean(durations)`. -/
def specMeanSpeed {α : Type} [DivisionRing α] (units : α) (ds : List α) : α :=
  units / (ds.sum / (ds.length : α))

/-- Spec: root of `(1/N) * Σ (meanSpeed - units/d_i)^2`. -/
def specSigma {α : Type} [DivisionRing α] (sqrt : α → α) (units : α) (ds : List α) : α :=
  sqrt ((1 / (ds.length : α)) *
    (ds.map (fun d => (specMeanSpeed units ds - units / d) ^ 2)).sum)

/-- Arithmetic mean of the per-run speeds `units/d_i`. -/
def meanOfSpeeds {α : Type} [DivisionRing α] (units : α) (ds : List α) : α :=
  (ds.map (fun d => units / d)).sum / (ds.length : α)

/-- Ordinary population standard deviation of the per-run speeds `units/d_i`. -/
def popStdDev {α : Type} [DivisionRing α] (sqrt : α → α) (units : α) (ds : List α) : α :=
  sqrt ((ds.map (fun d => (units / d - meanOfSpeeds units ds) ^ 2)).sum / (ds.length : α))

/-! ## Concrete storage stubs -/

/-- A faithful server, one call further: a new session starts at offset 0, a part moves
the offset to its end and sets the final flag. Buffers are given by their length. -/
def serverStep (st : Int × Bool) : Call Int → Int × Bool
  | .newUploadSession _ _ => (0, false)
  | .uploadObjectPart _ off buf last => (off + buf, last)
  | _ => st

/-- The resume offset and final flag a faithful server reports after a history. -/
def serverState (h : List (Call Int)) : Int × Bool := h.foldl serverStep (0, false)

/-- A stub that always succeeds: every upload takes one second, and offset queries are
answered by a faithful server. Buffers are given by their length; `sqrt` is a stand-in,
as `ℚ` has no square root. -/
def goodEnv : Env String ℚ Int where
  sqrt := fun x => x
  makeRandBuf := fun n => n
  newGcsClient := fun _ => .ok ()
  uploadObject := fun _ => .ok 1
  newUploadSession := fun _ => .ok "session"
  uploadObjectPart := fun _ => .ok 1
  getResumeOffset := fun h => .ok (serverState h)

/-- As `goodEnv`, but the client cannot be constructed. -/
def clientFails : Env String ℚ Int :=
  { goodEnv with newGcsClient := fun _ => .error "boom" }

/-- As `goodEnv`, but no session can be created. -/
def sessionFails : Env String ℚ Int :=
  { goodEnv with newUploadSession := fun _ => .error "boom" }

/-- As `goodEnv`, but the `UploadObject` that is call number `n` fails. -/
def uploadFailsAt (n : Nat) : Env String ℚ Int :=
  { goodEnv with uploadObject := fun h => if h.length = n then .error "boom" else .ok 1 }

/-- As `goodEnv`, but the `UploadObjectPart` that is call number `n` fails. -/
def partFailsAt (n : Nat) : Env String ℚ Int :=
  { goodEnv with uploadObjectPart := fun h => if h.length = n then .error "boom" else .ok 1 }

/-- As `goodEnv`, but the `GetResumeOffset` that is call number `n` fails. -/
def offsetFailsAt (n : Nat) : Env String ℚ Int :=
  { goodEnv with
    getResumeOffset := fun h => if h.length = n then .error "boom" else .ok (serverState h) }

/-- As `goodEnv`, but the `GetResumeOffset` that is call number `n` reports offset 0. -/
def offsetWrongAt (n : Nat) : Env String ℚ Int :=
  { goodEnv with
    getResumeOffset := fun h =>
      if h.length = n then .ok (0, (serverState h).2) else .ok (serverState h) }

/-- As `goodEnv`, but the `GetResumeOffset` that is call number `n` reports the final
flag negated. -/
def flagWrongAt (n : Nat) : Env String ℚ Int :=
  { goodEnv with
    getResumeOffset := fun h =>
      if h.length = n then .ok ((serverState h).1, !(serverState h).2)
      else .ok (serverState h) }

/-- A stub over any number type that never fails: the upload answered at a history of
length `n` takes `dur n`, and offset queries are answered by a faithful server. Buffers
are given by their length. -/
def timedEnv {α : Type} (sqrt : α → α) (dur : Nat → α) : Env String α Int where
  sqrt := sqrt
  makeRandBuf := fun n => n
  newGcsClient := fun _ => .ok ()
  uploadObject := fun h => .ok (dur h.length)
  newUploadSession := fun _ => .ok "session"
  uploadObjectPart := fun h => .ok (dur h.length)
  getResumeOffset := fun h => .ok (serverState h)

/-! ## The chunk loop on consistent answers -/

theorem int64_of_bounds (x : Int) (h1 : -(2 ^ 63) ≤ x) (h2 : x < 2 ^ 63) : int64 x = x := by
  unfold int64
  omega

theorem chunkCalls_zero {β : Type} (uploadUrl : String) (size : Int) (buf : β) (i : Nat) :
    chunkCalls uploadUrl size buf i 0 = [] := by
  simp [chunkCalls]

theorem chunkCalls_succ {β : Type} (uploadUrl : String) (size : Int) (buf : β) (i n : Nat) :
    chunkCalls uploadUrl size buf i (n + 1)
      = partCall uploadUrl size buf i :: .getResumeOffset uploadUrl
          :: chunkCalls uploadUrl size buf (i + 1) n := by
  simp [chunkCalls, List.range'_succ]

theorem chunkCalls_concat {β : Type} (uploadUrl : String) (size : Int) (buf : β) (i n : Nat) :
    chunkCalls uploadUrl size buf i (n + 1)
      = chunkCalls uploadUrl size buf i n
          ++ [partCall uploadUrl size buf (i + n), .getResumeOffset uploadUrl] := by
  simp [chunkCalls, List.range'_concat]

theorem chunk_off_step (size : Int) (i : Nat) (h0 : 0 < size) (h1 : size ≤ maxSize)
    (hi : i < 16) :
    int64 ((i : Int) * size + int64 size) = ((i + 1 : Nat) : Int) * size := by
  have hm : maxSize = 134217728 := by decide
  have hs : int64 size = size := int64_of_bounds size (by omega) (by omega)
  have hi' : (i : Int) ≤ 15 := by omega
  have hi0 : (0 : Int) ≤ (i : Int) := by omega
  have hb : (i : Int) * size ≤ 15 * 134217728 := by nlinarith
  have hb0 : 0 ≤ (i : Int) * size := by positivity
  rw [hs, int64_of_bounds _ (by omega) (by omega)]
  push_cast
  ring

/-- Chunks `i, ..., i+n-1` all succeed when every answer is consistent. -/
theorem chunkLoop_forward {ε α β : Type} (g : Env ε α β) (uploadUrl : String) (size : Int)
    (buf : β) (d : Nat → α) (h0 : 0 < size) (h1 : size ≤ maxSize) :
    ∀ (n i : Nat) (ds : List α) (w : World α β), i + n ≤ 16 →
      (∀ m, m < n → g.uploadObjectPart
          (w.calls ++ chunkCalls uploadUrl size buf i m ++ [partCall uploadUrl size buf (i + m)])
            = .ok (d (i + m))) →
      (∀ m, m < n → g.getResumeOffset (w.calls ++ chunkCalls uploadUrl size buf i (m + 1))
            = .ok (((i + m + 1 : Nat) : Int) * size, decide (i + m = 15))) →
      chunkLoop g uploadUrl size buf n i ⟨(i : Int) * size, ds⟩ w
        = (⟨w.calls ++ chunkCalls uploadUrl size buf i n, w.out⟩,
            .ok ⟨((i + n : Nat) : Int) * size, ds ++ (List.range' i n).map d⟩) := by
  intro n
  induction n with
  | zero =>
    intro i ds w _ _ _
    simp [chunkLoop, chunkCalls]
  | succ n ih =>
    intro i ds w hin hp ho
    have hp0 := hp 0 (Nat.succ_pos n)
    have ho0 := ho 0 (Nat.succ_pos n)
    simp only [chunkCalls_succ, chunkCalls_zero, Nat.add_zero] at ho0
    simp only [chunkCalls_zero, List.append_nil, Nat.add_zero] at hp0
    have hfl : decide ((i : Int) = runs - 1) = decide (i = 15) := by
      simp only [runs]
      apply decide_eq_decide.mpr
      omega
    have hstep := chunk_off_step size i h0 h1 (by omega)
    have hih := ih (i + 1) (ds ++ [d i])
      ⟨w.calls ++ [partCall uploadUrl size buf i, .getResumeOffset uploadUrl], w.out⟩
      (by omega)
      (by
        intro m hm
        have := hp (m + 1) (by omega)
        simp only [chunkCalls_succ] at this
        simpa [Nat.add_assoc, Nat.add_comm 1 m] using this)
      (by
        intro m hm
        have := ho (m + 1) (by omega)
        simp only [chunkCalls_succ] at this
        simpa [Nat.add_assoc, Nat.add_comm 1 m] using this)
    simp only [chunkLoop, World.log, hfl]
    simp only [partCall] at hp0 ho0
    rw [hp0]
    simp only [List.append_assoc, List.singleton_append]
    rw [ho0]
    simp only [hstep, ne_eq, not_true_eq_false, if_false]
    have hc : ((i : Int) + 1) = ((i + 1 : Nat) : Int) := by push_cast; ring
    simp only [partCall] at hih
    rw [hc, hih]
    simp [chunkCalls_succ, partCall, List.range'_succ, Nat.add_assoc, Nat.add_comm 1 n]

theorem chunkLoop_add {ε α β : Type} (g : Env ε α β) (uploadUrl : String) (size : Int)
    (buf : β) (m : Nat) :
    ∀ (n : Nat) (i : Int) (v : ChunkVars α) (w : World α β),
      chunkLoop g uploadUrl size buf (n + m) i v w
        = match chunkLoop g uploadUrl size buf n i v w with
          | (w1, .ok v1) => chunkLoop g uploadUrl size buf m (i + n) v1 w1
          | (w1, .error e) => (w1, .error e) := by
  intro n
  induction n with
  | zero => intro i v w; simp [chunkLoop]
  | succ n ih =>
    intro i v w
    rw [Nat.add_right_comm]
    simp only [chunkLoop]
    cases hp : g.uploadObjectPart (w.log (.uploadObjectPart uploadUrl v.off buf
        (decide (i = runs - 1)))).calls with
    | error e => simp
    | ok dd =>
      simp only
      cases ho : g.getResumeOffset ((w.log (.uploadObjectPart uploadUrl v.off buf
          (decide (i = runs - 1)))).log (.getResumeOffset uploadUrl)).calls with
      | error e => simp
      | ok r =>
        obtain ⟨testOff, testLast⟩ := r
        simp only
        split_ifs with h1 h2
        · rfl
        · rfl
        · rw [ih]
          have : i + 1 + (n : Int) = i + ((n + 1 : Nat) : Int) := by push_cast; ring
          rw [this]

/-- After `k` consistent chunks the loop continues from index `k` at offset `k * size`. -/
theorem chunkLoop_after {ε α β : Type} (g : Env ε α β) (uploadUrl : String) (size : Int)
    (buf : β) (d : Nat → α) (h0 : 0 < size) (h1 : size ≤ maxSize) (k r : Nat) (hk : k ≤ 16)
    (w : World α β) (hc : ChunksConsistent g uploadUrl size buf w.calls d k) :
    chunkLoop g uploadUrl size buf (k + r) 0 ⟨0, []⟩ w
      = chunkLoop g uploadUrl size buf r k ⟨(k : Int) * size, (List.range' 0 k).map d⟩
          ⟨w.calls ++ chunkCalls uploadUrl size buf 0 k, w.out⟩ := by
  have hf := chunkLoop_forward g uploadUrl size buf d h0 h1 k 0 [] w (by omega)
    (fun m hm => by simpa using (hc m hm).1)
    (fun m hm => by simpa using (hc m hm).2)
  simp only [Nat.cast_zero, zero_mul, Nat.zero_add, List.nil_append] at hf
  rw [chunkLoop_add, hf]
  simp

theorem mobjSizeLoop_of_body_error {ε α β : Type} [DivisionRing α] (g : Env ε α β)
    (bucket : String) (fuel : Nat) (size : Int) (w w1 : World α β) (e : GoError ε)
    (h1 : size ≤ maxSize) (hb : mobjSizeBody g bucket size w = (w1, some e)) :
    mobjSizeLoop g bucket (fuel + 1) size w = some (w1, some e) := by
  simp [mobjSizeLoop, sizeLoop, h1, hb]

theorem mobjSizeBody_of_chunk_error {ε α β : Type} [DivisionRing α] (g : Env ε α β)
    (bucket uploadUrl : String) (size : Int) (w w1 : World α β) (e : GoError ε)
    (hs : g.newUploadSession (w.calls ++ [sessionCall bucket size]) = .ok uploadUrl)
    (hb : chunkLoop g uploadUrl size (g.makeRandBuf size) 16 0 ⟨0, []⟩
      ⟨w.calls ++ [sessionCall bucket size], w.out⟩ = (w1, .error e)) :
    mobjSizeBody g bucket size w = (w1, some e) := by
  simp only [sessionCall] at hs hb
  have hr : runs.toNat = 16 := by decide
  simp [mobjSizeBody, World.log, hs, hr, hb]

theorem countP_isPart_chunkCalls {β : Type} (uploadUrl : String) (size : Int) (buf : β)
    (n : Nat) : ∀ i, (chunkCalls uploadUrl size buf i n).countP Call.isPart = n := by
  induction n with
  | zero => intro i; simp [chunkCalls_zero]
  | succ n ih => intro i; simp [chunkCalls_succ, ih, partCall, Call.isPart]

theorem countP_isOffset_chunkCalls {β : Type} (uploadUrl : String) (size : Int) (buf : β)
    (n : Nat) : ∀ i, (chunkCalls uploadUrl size buf i n).countP Call.isOffset = n := by
  induction n with
  | zero => intro i; simp [chunkCalls_zero]
  | succ n ih => intro i; simp [chunkCalls_succ, ih, partCall, Call.isOffset]

/-! ## Resumable driver: the claims -/

/-- One more iteration at index `k`, reduced to the two answers it receives. -/
theorem chunkLoop_step {ε α β : Type} (g : Env ε α β) (uploadUrl : String) (size : Int)
    (buf : β) (h0 : 0 < size) (h1 : size ≤ maxSize) (k r : Nat) (hk : k < 16)
    (ds : List α) (w : World α β) :
    chunkLoop g uploadUrl size buf (r + 1) k ⟨(k : Int) * size, ds⟩ w
      = match g.uploadObjectPart (w.calls ++ [partCall uploadUrl size buf k]) with
        | .error e => (⟨w.calls ++ [partCall uploadUrl size buf k], w.out⟩, .error (.external e))
        | .ok dk =>
          match g.getResumeOffset
              (w.calls ++ [partCall uploadUrl size buf k, .getResumeOffset uploadUrl]) with
          | .error e =>
            (⟨w.calls ++ [partCall uploadUrl size buf k, .getResumeOffset uploadUrl], w.out⟩,
              .error (.external e))
          | .ok (testOff, testLast) =>
            if testOff ≠ ((k + 1 : Nat) : Int) * size then
              (⟨w.calls ++ [partCall uploadUrl size buf k, .getResumeOffset uploadUrl], w.out⟩,
                .error (.errorf ("unexpected offset: got " ++ toString testOff ++ ", want "
                  ++ toString (((k + 1 : Nat) : Int) * size))))
            else if testLast ≠ decide (k = 15) then
              (⟨w.calls ++ [partCall uploadUrl size buf k, .getResumeOffset uploadUrl], w.out⟩,
                .error (.errorf ("unexpected last part flag: got " ++ toString testLast
                  ++ ", want " ++ toString (decide (k = 15)))))
            else
              chunkLoop g uploadUrl size buf r ((k + 1 : Nat) : Int)
                ⟨((k + 1 : Nat) : Int) * size, ds ++ [dk]⟩
                ⟨w.calls ++ [partCall uploadUrl size buf k, .getResumeOffset uploadUrl], w.out⟩ := by
  have hfl : decide ((k : Int) = runs - 1) = decide (k = 15) := by
    simp only [runs]
    apply decide_eq_decide.mpr
    omega
  have hstep := chunk_off_step size k h0 h1 hk
  have hc : ((k : Int) + 1) = ((k + 1 : Nat) : Int) := by push_cast; ring
  simp only [chunkLoop, World.log, hfl, hstep, partCall, List.append_assoc,
    List.singleton_append, hc]

/-- C1. In the size-loop body of `runUploadMultipartObj` at a size `0 < S ≤ maxSize`,
reached with any earlier history: if the session is created and all 16 chunk uploads
succeed with offset queries that agree with the local state, then the calls added are
exactly the `NewUploadSession` followed by 16 pairs (`UploadObjectPart`,
`GetResumeOffset`), the `i`-th upload carrying offset `i * S` and final flag `i = 15`;
the body ends without error after printing one line; and the first `i + 1` iterations
of the chunk loop leave the local offset at `(i + 1) * S`. -/
theorem C1_consistent_session_calls {ε α β : Type} [DivisionRing α] (g : Env ε α β)
    (bucket uploadUrl : String) (S : Int) (w : World α β) (d : Nat → α)
    (h0 : 0 < S) (h1 : S ≤ maxSize)
    (hs : g.newUploadSession (w.calls ++ [sessionCall bucket S]) = .ok uploadUrl)
    (hc : ChunksConsistent g uploadUrl S (g.makeRandBuf S)
      (w.calls ++ [sessionCall bucket S]) d 16) :
    mobjSizeBody g bucket S w
        = (⟨w.calls ++ sessionCall bucket S :: chunkCalls uploadUrl S (g.makeRandBuf S) 0 16,
            w.out ++ [resultLine g.sqrt S ((List.range 16).map d)]⟩, none)
    ∧ (∀ i, i < 16 →
        chunkLoop g uploadUrl S (g.makeRandBuf S) (i + 1) 0 ⟨0, []⟩
            (w.log (sessionCall bucket S))
          = (⟨w.calls ++ sessionCall bucket S
                :: chunkCalls uploadUrl S (g.makeRandBuf S) 0 (i + 1), w.out⟩,
              .ok ⟨((i : Int) + 1) * S, (List.range (i + 1)).map d⟩))
    ∧ (chunkCalls uploadUrl S (g.makeRandBuf S) 0 16).length = 32
    ∧ (∀ i, i < 16 →
        (chunkCalls uploadUrl S (g.makeRandBuf S) 0 16)[2 * i]?
          = some (.uploadObjectPart uploadUrl ((i : Int) * S) (g.makeRandBuf S) (decide (i = 15)))
        ∧ (chunkCalls uploadUrl S (g.makeRandBuf S) 0 16)[2 * i + 1]?
          = some (.getResumeOffset uploadUrl)) := by
  have hpre : ∀ k, k ≤ 16 →
      chunkLoop g uploadUrl S (g.makeRandBuf S) k 0 ⟨0, []⟩
          ⟨w.calls ++ [sessionCall bucket S], w.out⟩
        = (⟨w.calls ++ [sessionCall bucket S] ++ chunkCalls uploadUrl S (g.makeRandBuf S) 0 k,
              w.out⟩, .ok ⟨(k : Int) * S, (List.range' 0 k).map d⟩) := by
    intro k hk
    have := chunkLoop_after g uploadUrl S (g.makeRandBuf S) d h0 h1 k 0 hk
      ⟨w.calls ++ [sessionCall bucket S], w.out⟩ (fun m hm => hc m (by omega))
    simpa [chunkLoop] using this
  refine ⟨?_, ?_, ?_, ?_⟩
  · have h16 := hpre 16 (le_refl _)
    have hr : runs.toNat = 16 := by decide
    simp only [sessionCall] at hs h16
    simp only [mobjSizeBody, World.log, hs, hr, h16, World.print, sessionCall]
    simp [List.range_eq_range']
  · intro i hi
    have := hpre (i + 1) (by omega)
    simp only [World.log]
    rw [this]
    simp [List.range_eq_range']
  · simp [chunkCalls, List.range']
  · intro i hi
    interval_cases i <;> simp [chunkCalls, List.range', partCall]

/-- The chunk loop of one size, after `k` consistent chunks, reduced to the answers
received for chunk `k`. -/
theorem chunkLoop_at {ε α β : Type} (g : Env ε α β) (uploadUrl : String) (S : Int)
    (buf : β) (d : Nat → α) (h0 : 0 < S) (h1 : S ≤ maxSize) (k : Nat) (hk : k < 16)
    (w : World α β) (hc : ChunksConsistent g uploadUrl S buf w.calls d k) :
    chunkLoop g uploadUrl S buf 16 0 ⟨0, []⟩ w
      = chunkLoop g uploadUrl S buf ((15 - k) + 1) k ⟨(k : Int) * S, (List.range' 0 k).map d⟩
          ⟨w.calls ++ chunkCalls uploadUrl S buf 0 k, w.out⟩ := by
  have := chunkLoop_after g uploadUrl S buf d h0 h1 k ((15 - k) + 1) (by omega) w hc
  have h16 : k + ((15 - k) + 1) = 16 := by omega
  rw [h16] at this
  exact this

/-- C2. In `runUploadMultipartObj`, at a size `0 < S ≤ maxSize` and chunk `k < 16`:
if the session is created, chunks `0..k-1` are consistent, chunk `k` is uploaded, and
its `GetResumeOffset` succeeds with an offset `o ≠ (k+1) * S`, then the size loop
returns the error "unexpected offset: got o, want (k+1)*S", and the history ends with
that query: nothing is called afterwards, for this size or a later one. -/
theorem C2_offset_mismatch {ε α β : Type} [DivisionRing α] (g : Env ε α β)
    (bucket uploadUrl : String) (S : Int) (w : World α β) (d : Nat → α) (k : Nat)
    (dk : α) (o : Int) (f : Bool) (fuel : Nat)
    (h0 : 0 < S) (h1 : S ≤ maxSize) (hk : k < 16)
    (hs : g.newUploadSession (w.calls ++ [sessionCall bucket S]) = .ok uploadUrl)
    (hc : ChunksConsistent g uploadUrl S (g.makeRandBuf S)
      (w.calls ++ [sessionCall bucket S]) d k)
    (hp : g.uploadObjectPart (w.calls ++ [sessionCall bucket S]
        ++ chunkCalls uploadUrl S (g.makeRandBuf S) 0 k
        ++ [partCall uploadUrl S (g.makeRandBuf S) k]) = .ok dk)
    (ho : g.getResumeOffset (w.calls ++ [sessionCall bucket S]
        ++ chunkCalls uploadUrl S (g.makeRandBuf S) 0 (k + 1)) = .ok (o, f))
    (hne : o ≠ ((k : Int) + 1) * S) :
    mobjSizeLoop g bucket (fuel + 1) S w
      = some (⟨w.calls ++ [sessionCall bucket S]
                ++ chunkCalls uploadUrl S (g.makeRandBuf S) 0 (k + 1), w.out⟩,
              some (.errorf ("unexpected offset: got " ++ toString o ++ ", want "
                ++ toString (((k : Int) + 1) * S)))) := by
  apply mobjSizeLoop_of_body_error g bucket fuel S w _ _ h1
  apply mobjSizeBody_of_chunk_error g bucket uploadUrl S w _ _ hs
  rw [chunkLoop_at g uploadUrl S (g.makeRandBuf S) d h0 h1 k hk _ hc,
    chunkLoop_step g uploadUrl S (g.makeRandBuf S) h0 h1 k (15 - k) hk]
  simp only [chunkCalls_concat, Nat.zero_add, ← List.append_assoc] at ho
  simp only [← List.append_assoc]
  have hne2 : o ≠ ((k + 1 : Nat) : Int) * S := by push_cast; exact hne
  rw [hp]
  simp only
  rw [ho]
  simp only [if_pos hne2]
  simp [chunkCalls_concat]

/-- C3. In `runUploadMultipartObj`, at a size `0 < S ≤ maxSize` and chunk `k < 16`:
if the session is created, chunks `0..k-1` are consistent, chunk `k` is uploaded, and
its `GetResumeOffset` succeeds with the right offset `(k+1) * S` but a final flag
`f ≠ (k = 15)`, then the size loop returns the error
"unexpected last part flag: got f, want (k = 15)" and nothing is called afterwards.
So `f = true` before the last chunk and `f = false` after the last chunk are
both rejected. -/
theorem C3_final_flag_mismatch {ε α β : Type} [DivisionRing α] (g : Env ε α β)
    (bucket uploadUrl : String) (S : Int) (w : World α β) (d : Nat → α) (k : Nat)
    (dk : α) (f : Bool) (fuel : Nat)
    (h0 : 0 < S) (h1 : S ≤ maxSize) (hk : k < 16)
    (hs : g.newUploadSession (w.calls ++ [sessionCall bucket S]) = .ok uploadUrl)
    (hc : ChunksConsistent g uploadUrl S (g.makeRandBuf S)
      (w.calls ++ [sessionCall bucket S]) d k)
    (hp : g.uploadObjectPart (w.calls ++ [sessionCall bucket S]
        ++ chunkCalls uploadUrl S (g.makeRandBuf S) 0 k
        ++ [partCall uploadUrl S (g.makeRandBuf S) k]) = .ok dk)
    (ho : g.getResumeOffset (w.calls ++ [sessionCall bucket S]
        ++ chunkCalls uploadUrl S (g.makeRandBuf S) 0 (k + 1))
          = .ok (((k : Int) + 1) * S, f))
    (hne : f ≠ decide (k = 15)) :
    mobjSizeLoop g bucket (fuel + 1) S w
      = some (⟨w.calls ++ [sessionCall bucket S]
                ++ chunkCalls uploadUrl S (g.makeRandBuf S) 0 (k + 1), w.out⟩,
              some (.errorf ("unexpected last part flag: got " ++ toString f ++ ", want "
                ++ toString (decide (k = 15)))))
    ∧ (k < 15 → f = true) ∧ (k = 15 → f = false) := by
  refine ⟨?_, ?_, ?_⟩
  · apply mobjSizeLoop_of_body_error g bucket fuel S w _ _ h1
    apply mobjSizeBody_of_chunk_error g bucket uploadUrl S w _ _ hs
    rw [chunkLoop_at g uploadUrl S (g.makeRandBuf S) d h0 h1 k hk _ hc,
      chunkLoop_step g uploadUrl S (g.makeRandBuf S) h0 h1 k (15 - k) hk]
    simp only [chunkCalls_concat, Nat.zero_add, ← List.append_assoc] at ho
    simp only [← List.append_assoc]
    have hcast : ((k : Int) + 1) = ((k + 1 : Nat) : Int) := by push_cast; ring
    rw [hcast] at ho
    rw [hp]
    simp only
    rw [ho]
    simp only [ne_eq, not_true_eq_false, if_false, if_pos hne]
    simp [chunkCalls_concat]
  · intro hk15
    have : decide (k = 15) = false := by simp; omega
    rw [this] at hne
    simpa using hne
  · intro hk15
    have : decide (k = 15) = true := by simp [hk15]
    rw [this] at hne
    simpa using hne

/-- C4. In `runUploadMultipartObj`, at a size `0 < S ≤ maxSize` reached with any
earlier history: (a) if `NewUploadSession` returns an error `e`, the size loop returns
`e` and that call is the last one; and, once the session is created and chunks
`0..k-1` (`k < 16`) are consistent, (b) if `UploadObjectPart` of chunk `k` returns an
error `e`, the size loop returns `e`, the calls for this size are the session call,
`k` pairs and that last upload (`k + 1` uploads, `k` offset queries), and nothing is
called afterwards; (c) if chunk `k` is uploaded and its `GetResumeOffset` returns an
error `e`, the size loop returns `e` and that query is the last call. -/
theorem C4_capability_error_aborts {ε α β : Type} [DivisionRing α] (g : Env ε α β)
    (bucket : String) (S : Int) (w : World α β) (e : ε) (fuel : Nat)
    (h0 : 0 < S) (h1 : S ≤ maxSize) :
    (g.newUploadSession (w.calls ++ [sessionCall bucket S]) = .error e →
      mobjSizeLoop g bucket (fuel + 1) S w
        = some (⟨w.calls ++ [sessionCall bucket S], w.out⟩, some (.external e)))
    ∧ (∀ (uploadUrl : String) (d : Nat → α) (k : Nat), k < 16 →
        g.newUploadSession (w.calls ++ [sessionCall bucket S]) = .ok uploadUrl →
        ChunksConsistent g uploadUrl S (g.makeRandBuf S)
          (w.calls ++ [sessionCall bucket S]) d k →
        (g.uploadObjectPart (w.calls ++ [sessionCall bucket S]
            ++ chunkCalls uploadUrl S (g.makeRandBuf S) 0 k
            ++ [partCall uploadUrl S (g.makeRandBuf S) k]) = .error e →
          mobjSizeLoop g bucket (fuel + 1) S w
            = some (⟨w.calls ++ (sessionCall bucket S
                      :: (chunkCalls uploadUrl S (g.makeRandBuf S) 0 k
                          ++ [partCall uploadUrl S (g.makeRandBuf S) k])), w.out⟩,
                    some (.external e))
          ∧ (sessionCall bucket S :: (chunkCalls uploadUrl S (g.makeRandBuf S) 0 k
              ++ [partCall uploadUrl S (g.makeRandBuf S) k])).countP Call.isPart = k + 1
          ∧ (sessionCall bucket S :: (chunkCalls uploadUrl S (g.makeRandBuf S) 0 k
              ++ [partCall uploadUrl S (g.makeRandBuf S) k])).countP Call.isOffset = k)
        ∧ (∀ dk : α,
            g.uploadObjectPart (w.calls ++ [sessionCall bucket S]
              ++ chunkCalls uploadUrl S (g.makeRandBuf S) 0 k
              ++ [partCall uploadUrl S (g.makeRandBuf S) k]) = .ok dk →
            g.getResumeOffset (w.calls ++ [sessionCall bucket S]
              ++ chunkCalls uploadUrl S (g.makeRandBuf S) 0 (k + 1)) = .error e →
            mobjSizeLoop g bucket (fuel + 1) S w
              = some (⟨w.calls ++ (sessionCall bucket S
                        :: chunkCalls uploadUrl S (g.makeRandBuf S) 0 (k + 1)), w.out⟩,
                      some (.external e)))) := by
  refine ⟨?_, ?_⟩
  · intro hs
    apply mobjSizeLoop_of_body_error g bucket fuel S w _ _ h1
    simp only [sessionCall] at hs
    simp [mobjSizeBody, World.log, hs, sessionCall]
  · intro uploadUrl d k hk hs hc
    refine ⟨?_, ?_⟩
    · intro hp
      refine ⟨?_, ?_, ?_⟩
      · apply mobjSizeLoop_of_body_error g bucket fuel S w _ _ h1
        apply mobjSizeBody_of_chunk_error g bucket uploadUrl S w _ _ hs
        rw [chunkLoop_at g uploadUrl S (g.makeRandBuf S) d h0 h1 k hk _ hc,
          chunkLoop_step g uploadUrl S (g.makeRandBuf S) h0 h1 k (15 - k) hk]
        simp only
        rw [hp]
        simp
      · simp [countP_isPart_chunkCalls, sessionCall, partCall, Call.isPart]
      · simp [countP_isOffset_chunkCalls, sessionCall, partCall, Call.isOffset]
    · intro dk hp ho
      apply mobjSizeLoop_of_body_error g bucket fuel S w _ _ h1
      apply mobjSizeBody_of_chunk_error g bucket uploadUrl S w _ _ hs
      rw [chunkLoop_at g uploadUrl S (g.makeRandBuf S) d h0 h1 k hk _ hc,
        chunkLoop_step g uploadUrl S (g.makeRandBuf S) h0 h1 k (15 - k) hk]
      simp only [chunkCalls_concat, Nat.zero_add, ← List.append_assoc] at ho
      simp only [← List.append_assoc]
      rw [hp]
      simp only
      rw [ho]
      simp [chunkCalls_concat]

/-! ## The size loop and the run loop -/

theorem sweepSize_le (s : Nat) (hs : s ≤ 7) : sweepSize s ≤ maxSize := by
  interval_cases s <;> decide

theorem sweepSize_double (s : Nat) (hs : s ≤ 7) :
    int64 (sweepSize s * 2) = sweepSize (s + 1) := by
  interval_cases s <;> decide

theorem sweepSizes_eq : (List.range' 0 8).map sweepSize = sweepSizes := by decide

/-- With enough fuel the size loop from step `s` is the iteration over the remaining
sizes. -/
theorem sizeLoop_sweep {ε α β : Type}
    (body : Int → World α β → World α β × Option (GoError ε)) :
    ∀ (n s fuel : Nat) (w : World α β), s + n = 8 → n < fuel →
      sizeLoop body fuel (sweepSize s) w
        = some (forEachSize body ((List.range' s n).map sweepSize) w) := by
  intro n
  induction n with
  | zero =>
    intro s fuel w hs hf
    obtain ⟨f, rfl⟩ : ∃ f, fuel = f + 1 := ⟨fuel - 1, by omega⟩
    have h8 : s = 8 := by omega
    subst h8
    have : ¬ sweepSize 8 ≤ maxSize := by decide
    simp [sizeLoop, this, forEachSize]
  | succ n ih =>
    intro s fuel w hs hf
    obtain ⟨f, rfl⟩ : ∃ f, fuel = f + 1 := ⟨fuel - 1, by omega⟩
    have hle := sweepSize_le s (by omega)
    simp only [sizeLoop, hle, if_true, List.range'_succ, List.map_cons, forEachSize]
    rcases hb : body (sweepSize s) w with ⟨w1, _ | e⟩
    · simp only
      rw [sweepSize_double s (by omega), ih (s + 1) f w1 (by omega) (by omega)]
    · rfl

theorem objCalls_zero {β : Type} (bucket : String) (size : Int) (buf : β) (i : Nat) :
    objCalls bucket size buf i 0 = [] := by
  simp [objCalls]

theorem objCalls_succ {β : Type} (bucket : String) (size : Int) (buf : β) (i n : Nat) :
    objCalls bucket size buf i (n + 1)
      = objCall bucket size buf (i : Int) :: objCalls bucket size buf (i + 1) n := by
  simp [objCalls, List.range'_succ]

theorem objCalls_concat {β : Type} (bucket : String) (size : Int) (buf : β) (i n : Nat) :
    objCalls bucket size buf i (n + 1)
      = objCalls bucket size buf i n ++ [objCall bucket size buf ((i + n : Nat) : Int)] := by
  simp [objCalls, List.range'_concat]

theorem sweepCalls_zero {ε α β : Type} (g : Env ε α β) (bucket : String) (s : Nat) :
    sweepCalls g bucket s 0 = [] := by
  simp [sweepCalls]

theorem sweepCalls_succ {ε α β : Type} (g : Env ε α β) (bucket : String) (s j : Nat) :
    sweepCalls g bucket s (j + 1)
      = objCalls bucket (sweepSize s) (g.makeRandBuf (sweepSize s)) 0 16
          ++ sweepCalls g bucket (s + 1) j := by
  simp [sweepCalls, List.range'_succ]

/-- What the run loop leaves behind: it prints nothing; on success it has made exactly
the `n` expected calls and taken `n` durations; its only errors are those of the client. -/
theorem uploadLoop_result {ε α β : Type} (g : Env ε α β) (bucket : String) (size : Int)
    (buf : β) :
    ∀ (n i : Nat) (ds : List α) (w w1 : World α β) (r : Except (GoError ε) (List α)),
      uploadLoop g bucket size buf n i ds w = (w1, r) →
      w1.out = w.out
      ∧ match r with
        | .ok ds1 => ds1.length = ds.length + n
            ∧ w1.calls = w.calls ++ objCalls bucket size buf i n
        | .error e => ∃ x, e = .external x := by
  intro n
  induction n with
  | zero =>
    intro i ds w w1 r h
    simp only [uploadLoop, Prod.mk.injEq] at h
    obtain ⟨rfl, rfl⟩ := h
    simp [objCalls_zero]
  | succ n ih =>
    intro i ds w w1 r h
    simp only [uploadLoop] at h
    cases hu : g.uploadObject (w.log (objCall bucket size buf i)).calls with
    | error e =>
      rw [hu] at h
      simp only [Prod.mk.injEq] at h
      obtain ⟨rfl, rfl⟩ := h
      simp [World.log]
    | ok dd =>
      rw [hu] at h
      simp only at h
      have hc : ((i : Int) + 1) = ((i + 1 : Nat) : Int) := by push_cast; ring
      rw [hc] at h
      have := ih (i + 1) (ds ++ [dd]) (w.log (objCall bucket size buf i)) w1 r h
      refine ⟨by simpa [World.log] using this.1, ?_⟩
      have h2 := this.2
      cases r with
      | error e => simpa using h2
      | ok ds1 =>
        simp only [World.log, objCalls_succ, List.length_append, List.length_singleton] at h2 ⊢
        obtain ⟨h3, h4⟩ := h2
        refine ⟨by omega, ?_⟩
        rw [h4]
        simp

/-- Runs `i, ..., i+n-1` all succeed when the client answers each of them. -/
theorem uploadLoop_forward {ε α β : Type} (g : Env ε α β) (bucket : String) (size : Int)
    (buf : β) (d : Nat → α) :
    ∀ (n i : Nat) (ds : List α) (w : World α β),
      (∀ m, m < n → g.uploadObject (w.calls ++ objCalls bucket size buf i (m + 1))
          = .ok (d (i + m))) →
      uploadLoop g bucket size buf n i ds w
        = (⟨w.calls ++ objCalls bucket size buf i n, w.out⟩,
            .ok (ds ++ (List.range' i n).map d)) := by
  intro n
  induction n with
  | zero => intro i ds w _; simp [uploadLoop, objCalls_zero]
  | succ n ih =>
    intro i ds w hu
    have hu0 := hu 0 (Nat.succ_pos n)
    simp only [objCalls_succ, objCalls_zero, Nat.add_zero] at hu0
    have hc : ((i : Int) + 1) = ((i + 1 : Nat) : Int) := by push_cast; ring
    have hih := ih (i + 1) (ds ++ [d i]) ⟨w.calls ++ [objCall bucket size buf i], w.out⟩
      (by
        intro m hm
        have := hu (m + 1) (by omega)
        simp only [objCalls_succ] at this
        simpa [Nat.add_assoc, Nat.add_comm 1 m] using this)
    simp only [uploadLoop, World.log, hu0, hc]
    rw [hih]
    simp [objCalls_succ, List.range'_succ]

theorem uploadLoop_add {ε α β : Type} (g : Env ε α β) (bucket : String) (size : Int)
    (buf : β) (m : Nat) :
    ∀ (n : Nat) (i : Int) (ds : List α) (w : World α β),
      uploadLoop g bucket size buf (n + m) i ds w
        = match uploadLoop g bucket size buf n i ds w with
          | (w1, .ok ds1) => uploadLoop g bucket size buf m (i + n) ds1 w1
          | (w1, .error e) => (w1, .error e) := by
  intro n
  induction n with
  | zero => intro i ds w; simp [uploadLoop]
  | succ n ih =>
    intro i ds w
    rw [Nat.add_right_comm]
    simp only [uploadLoop]
    cases hu : g.uploadObject (w.log (objCall bucket size buf i)).calls with
    | error e => simp
    | ok dd =>
      simp only
      rw [ih]
      have : i + 1 + (n : Int) = i + ((n + 1 : Nat) : Int) := by push_cast; ring
      rw [this]

/-! ## What the loops leave behind -/

/-- What the chunk loop leaves behind: it prints nothing; on success it has taken `n`
durations; it never returns an `errors.New` value. -/
theorem chunkLoop_result {ε α β : Type} (g : Env ε α β) (uploadUrl : String) (size : Int)
    (buf : β) :
    ∀ (n : Nat) (i : Int) (v : ChunkVars α) (w w1 : World α β)
      (r : Except (GoError ε) (ChunkVars α)),
      chunkLoop g uploadUrl size buf n i v w = (w1, r) →
      w1.out = w.out
      ∧ match r with
        | .ok v1 => v1.durations.length = v.durations.length + n
        | .error e => ∀ msg, e ≠ .errorsNew msg := by
  intro n
  induction n with
  | zero =>
    intro i v w w1 r h
    simp only [chunkLoop, Prod.mk.injEq] at h
    obtain ⟨rfl, rfl⟩ := h
    simp
  | succ n ih =>
    intro i v w w1 r h
    simp only [chunkLoop] at h
    cases hp : g.uploadObjectPart (w.log (.uploadObjectPart uploadUrl v.off buf
        (decide (i = runs - 1)))).calls with
    | error e =>
      rw [hp] at h
      simp only [Prod.mk.injEq] at h
      obtain ⟨rfl, rfl⟩ := h
      simp [World.log]
    | ok dd =>
      rw [hp] at h
      simp only at h
      cases ho : g.getResumeOffset ((w.log (.uploadObjectPart uploadUrl v.off buf
          (decide (i = runs - 1)))).log (.getResumeOffset uploadUrl)).calls with
      | error e =>
        rw [ho] at h
        simp only [Prod.mk.injEq] at h
        obtain ⟨rfl, rfl⟩ := h
        simp [World.log]
      | ok p =>
        obtain ⟨testOff, testLast⟩ := p
        rw [ho] at h
        simp only at h
        split_ifs at h with h1 h2
        · simp only [Prod.mk.injEq] at h
          obtain ⟨rfl, rfl⟩ := h
          simp [World.log]
        · simp only [Prod.mk.injEq] at h
          obtain ⟨rfl, rfl⟩ := h
          simp [World.log]
        · have := ih _ _ _ _ _ h
          refine ⟨by simpa [World.log] using this.1, ?_⟩
          have h3 := this.2
          cases r with
          | error e => simpa using h3
          | ok v1 =>
            simp only [List.length_append, List.length_singleton] at h3 ⊢
            omega

/-- A size of `runUploadObj` that ends without error made the 16 expected uploads and
printed one line, computed from 16 durations. -/
theorem objSizeBody_ok {ε α β : Type} [DivisionRing α] (g : Env ε α β) (bucket : String)
    (size : Int) (w w1 : World α β) (h : objSizeBody g bucket size w = (w1, none)) :
    w1.calls = w.calls ++ objCalls bucket size (g.makeRandBuf size) 0 16
    ∧ ∃ ds : List α, ds.length = 16 ∧ w1.out = w.out ++ [resultLine g.sqrt size ds] := by
  simp only [objSizeBody] at h
  rcases hu : uploadLoop g bucket size (g.makeRandBuf size) runs.toNat 0 [] w with ⟨w2, _ | ds⟩
  · rw [hu] at h
    simp at h
  · rw [hu] at h
    simp only [Prod.mk.injEq, and_true] at h
    have hr : runs.toNat = 16 := by decide
    rw [hr] at hu
    have := uploadLoop_result g bucket size (g.makeRandBuf size) 16 0 [] w w2 _
      (by simpa using hu)
    subst h
    simp only [World.print]
    refine ⟨this.2.2, ds, by simpa using this.2.1, by rw [this.1]⟩

/-- A size of `runUploadObj` that ends with an error printed nothing and returns an
error of the client. -/
theorem objSizeBody_error {ε α β : Type} [DivisionRing α] (g : Env ε α β) (bucket : String)
    (size : Int) (w w1 : World α β) (e : GoError ε)
    (h : objSizeBody g bucket size w = (w1, some e)) :
    w1.out = w.out ∧ ∃ x, e = .external x := by
  simp only [objSizeBody] at h
  rcases hu : uploadLoop g bucket size (g.makeRandBuf size) runs.toNat 0 [] w with ⟨w2, e2 | ds⟩
  · rw [hu] at h
    simp only [Prod.mk.injEq, Option.some.injEq] at h
    obtain ⟨rfl, rfl⟩ := h
    have := uploadLoop_result g bucket size (g.makeRandBuf size) runs.toNat 0 [] w w2 _
      (by simpa using hu)
    exact ⟨this.1, this.2⟩
  · rw [hu] at h
    simp at h

/-- A size of `runUploadMultipartObj` that ends without error printed one line,
computed from 16 durations. -/
theorem mobjSizeBody_ok {ε α β : Type} [DivisionRing α] (g : Env ε α β) (bucket : String)
    (size : Int) (w w1 : World α β) (h : mobjSizeBody g bucket size w = (w1, none)) :
    ∃ ds : List α, ds.length = 16 ∧ w1.out = w.out ++ [resultLine g.sqrt size ds] := by
  simp only [mobjSizeBody] at h
  cases hs : g.newUploadSession (w.log (.newUploadSession bucket (sessionName size))).calls with
  | error e =>
    rw [hs] at h
    simp at h
  | ok uploadUrl =>
    rw [hs] at h
    simp only at h
    rcases hu : chunkLoop g uploadUrl size (g.makeRandBuf size) runs.toNat 0 ⟨0, []⟩
      (w.log (.newUploadSession bucket (sessionName size))) with ⟨w2, _ | v⟩
    · rw [hu] at h
      simp at h
    · rw [hu] at h
      simp only [Prod.mk.injEq, and_true] at h
      have hr : runs.toNat = 16 := by decide
      rw [hr] at hu
      have := chunkLoop_result g uploadUrl size (g.makeRandBuf size) 16 0 ⟨0, []⟩ _ w2 _ hu
      subst h
      simp only [World.print]
      refine ⟨v.durations, by simpa using this.2, ?_⟩
      rw [this.1]
      simp [World.log]

/-- A size of `runUploadMultipartObj` that ends with an error printed nothing and its
error is not an `errors.New` value. -/
theorem mobjSizeBody_error {ε α β : Type} [DivisionRing α] (g : Env ε α β) (bucket : String)
    (size : Int) (w w1 : World α β) (e : GoError ε)
    (h : mobjSizeBody g bucket size w = (w1, some e)) :
    w1.out = w.out ∧ ∀ msg, e ≠ .errorsNew msg := by
  simp only [mobjSizeBody] at h
  cases hs : g.newUploadSession (w.log (.newUploadSession bucket (sessionName size))).calls with
  | error e1 =>
    rw [hs] at h
    simp only [Prod.mk.injEq, Option.some.injEq] at h
    obtain ⟨rfl, rfl⟩ := h
    simp [World.log]
  | ok uploadUrl =>
    rw [hs] at h
    simp only at h
    rcases hu : chunkLoop g uploadUrl size (g.makeRandBuf size) runs.toNat 0 ⟨0, []⟩
      (w.log (.newUploadSession bucket (sessionName size))) with ⟨w2, e2 | v⟩
    · rw [hu] at h
      simp only [Prod.mk.injEq, Option.some.injEq] at h
      obtain ⟨rfl, rfl⟩ := h
      have := chunkLoop_result g uploadUrl size (g.makeRandBuf size) _ 0 ⟨0, []⟩ _ w2 _ hu
      exact ⟨by simpa [World.log] using this.1, this.2⟩
    · rw [hu] at h
      simp at h

/-- The errors of the size loop are errors of its body. -/
theorem sizeLoop_error {ε α β : Type}
    (body : Int → World α β → World α β × Option (GoError ε)) (Q : GoError ε → Prop)
    (hQ : ∀ s w w1 e, body s w = (w1, some e) → Q e) :
    ∀ (fuel : Nat) (size : Int) (w w1 : World α β) (e : GoError ε),
      sizeLoop body fuel size w = some (w1, some e) → Q e := by
  intro fuel
  induction fuel with
  | zero => intro size w w1 e h; simp [sizeLoop] at h
  | succ f ih =>
    intro size w w1 e h
    simp only [sizeLoop] at h
    split_ifs at h with hle
    · rcases hb : body size w with ⟨w2, _ | e2⟩
      · rw [hb] at h
        exact ih _ _ _ _ h
      · rw [hb] at h
        simp only [Option.some.injEq, Prod.mk.injEq] at h
        obtain ⟨rfl, rfl⟩ := h
        exact hQ _ _ _ _ hb
    · simp at h

/-- What an iteration over sizes that ends without error has accumulated. -/
theorem forEachSize_ok {ε α β γ : Type}
    (body : Int → World α β → World α β × Option (GoError ε))
    (φ : World α β → List γ) (ψ : Int → List γ)
    (hb : ∀ s w w1, body s w = (w1, none) → φ w1 = φ w ++ ψ s) :
    ∀ (ss : List Int) (w w1 : World α β),
      forEachSize body ss w = (w1, none) → φ w1 = φ w ++ (ss.map ψ).flatten := by
  intro ss
  induction ss with
  | nil =>
    intro w w1 h
    simp only [forEachSize, Prod.mk.injEq, and_true] at h
    subst h
    simp
  | cons s ss ih =>
    intro w w1 h
    simp only [forEachSize] at h
    rcases hs : body s w with ⟨w2, _ | e2⟩
    · rw [hs] at h
      rw [ih w2 w1 h, hb s w w2 hs]
      simp
    · rw [hs] at h
      simp at h

/-! ## The single-shot sweep up to a failing upload -/

/-- A size of `runUploadObj` whose 16 uploads are all answered prints its line. -/
theorem objSizeBody_forward {ε α β : Type} [DivisionRing α] (g : Env ε α β)
    (bucket : String) (size : Int) (d : Nat → α) (w : World α β)
    (hu : ∀ m, m < 16 →
      g.uploadObject (w.calls ++ objCalls bucket size (g.makeRandBuf size) 0 (m + 1))
        = .ok (d m)) :
    objSizeBody g bucket size w
      = (⟨w.calls ++ objCalls bucket size (g.makeRandBuf size) 0 16,
          w.out ++ [resultLine g.sqrt size ((List.range' 0 16).map d)]⟩, none) := by
  have hr : runs.toNat = 16 := by decide
  have := uploadLoop_forward g bucket size (g.makeRandBuf size) d 16 0 [] w
    (fun m hm => by simpa using hu m hm)
  simp only [Nat.cast_zero, List.nil_append] at this
  simp only [objSizeBody, hr, this, World.print]

/-- A size of `runUploadObj` whose upload of run `k` fails after `k` answered uploads
returns that error at once. -/
theorem objSizeBody_fail {ε α β : Type} [DivisionRing α] (g : Env ε α β)
    (bucket : String) (size : Int) (d : Nat → α) (w : World α β) (k : Nat) (e : ε)
    (hk : k < 16)
    (hu : ∀ m, m < k →
      g.uploadObject (w.calls ++ objCalls bucket size (g.makeRandBuf size) 0 (m + 1))
        = .ok (d m))
    (he : g.uploadObject (w.calls ++ objCalls bucket size (g.makeRandBuf size) 0 (k + 1))
        = .error e) :
    objSizeBody g bucket size w
      = (⟨w.calls ++ objCalls bucket size (g.makeRandBuf size) 0 (k + 1), w.out⟩,
          some (.external e)) := by
  have hr : runs.toNat = 16 := by decide
  have h16 : 16 = k + ((15 - k) + 1) := by omega
  have := uploadLoop_forward g bucket size (g.makeRandBuf size) d k 0 [] w
    (fun m hm => by simpa using hu m hm)
  simp only [Nat.cast_zero, List.nil_append] at this
  simp only [objSizeBody, hr]
  rw [h16, uploadLoop_add, this]
  simp only [uploadLoop, World.log, zero_add]
  rw [objCalls_concat, Nat.zero_add, ← List.append_assoc] at he
  rw [he]
  simp [objCalls_concat]

/-- The sweep of `runUploadObj` from step `s`: `j` sizes succeed, then run `k` of the
next size fails. -/
theorem forEachSize_obj_fail {ε α β : Type} [DivisionRing α] (g : Env ε α β)
    (bucket : String) (d : Nat → Nat → α) (k : Nat) (e : ε) (hk : k < 16) :
    ∀ (j s : Nat) (w : World α β) (rest : List Int),
      (∀ t m, t < j → m < 16 →
        g.uploadObject (w.calls ++ sweepCalls g bucket s t
          ++ objCalls bucket (sweepSize (s + t)) (g.makeRandBuf (sweepSize (s + t))) 0 (m + 1))
          = .ok (d (s + t) m)) →
      (∀ m, m < k →
        g.uploadObject (w.calls ++ sweepCalls g bucket s j
          ++ objCalls bucket (sweepSize (s + j)) (g.makeRandBuf (sweepSize (s + j))) 0 (m + 1))
          = .ok (d (s + j) m)) →
      g.uploadObject (w.calls ++ sweepCalls g bucket s j
          ++ objCalls bucket (sweepSize (s + j)) (g.makeRandBuf (sweepSize (s + j))) 0 (k + 1))
          = .error e →
      forEachSize (objSizeBody g bucket)
          ((List.range' s j).map sweepSize ++ sweepSize (s + j) :: rest) w
        = (⟨w.calls ++ sweepCalls g bucket s j
              ++ objCalls bucket (sweepSize (s + j)) (g.makeRandBuf (sweepSize (s + j))) 0
                  (k + 1),
            w.out ++ (List.range' s j).map
              (fun t => resultLine g.sqrt (sweepSize t) ((List.range' 0 16).map (d t)))⟩,
            some (.external e)) := by
  intro j
  induction j with
  | zero =>
    intro s w rest _ hu he
    simp only [sweepCalls_zero, List.append_nil, Nat.add_zero] at hu he
    simp only [List.range'_zero, List.map_nil, List.nil_append, forEachSize, Nat.add_zero,
      sweepCalls_zero, List.append_nil]
    rw [objSizeBody_fail g bucket (sweepSize s) (d s) w k e hk hu he]
  | succ j ih =>
    intro s w rest hok hu he
    have h1 := objSizeBody_forward g bucket (sweepSize s) (d s) w (fun m hm => by
      have := hok 0 m (Nat.succ_pos j) hm
      simpa [sweepCalls_zero] using this)
    have hs : s + (j + 1) = s + 1 + j := by omega
    have hl : (List.range' s (j + 1)).map sweepSize ++ sweepSize (s + (j + 1)) :: rest
        = sweepSize s :: ((List.range' (s + 1) j).map sweepSize
            ++ sweepSize (s + 1 + j) :: rest) := by
      simp [List.range'_succ, hs]
    rw [hl]
    simp only [forEachSize, h1]
    have := ih (s + 1)
      ⟨w.calls ++ objCalls bucket (sweepSize s) (g.makeRandBuf (sweepSize s)) 0 16,
        w.out ++ [resultLine g.sqrt (sweepSize s) ((List.range' 0 16).map (d s))]⟩ rest
      (by
        intro t m ht hm
        have := hok (t + 1) m (by omega) hm
        simp only [sweepCalls_succ, ← List.append_assoc] at this
        have hst : s + (t + 1) = s + 1 + t := by omega
        rw [hst] at this
        simpa using this)
      (by
        intro m hm
        have := hu m hm
        simp only [sweepCalls_succ, ← List.append_assoc] at this
        rw [hs] at this
        simpa using this)
      (by
        have := he
        simp only [sweepCalls_succ, ← List.append_assoc] at this
        rw [hs] at this
        simpa using this)
    rw [this, hs]
    simp [sweepCalls_succ, List.range'_succ]

/-! ## Single-shot driver: a failing upload -/

theorem countP_isObject_objCalls {β : Type} (bucket : String) (size : Int) (buf : β)
    (n : Nat) : ∀ i, (objCalls bucket size buf i n).countP Call.isObject = n := by
  induction n with
  | zero => intro i; simp [objCalls_zero]
  | succ n ih => intro i; simp [objCalls_succ, ih, objCall, Call.isObject]

theorem countP_isObject_sweepCalls {ε α β : Type} (g : Env ε α β) (bucket : String)
    (j : Nat) : ∀ s, (sweepCalls g bucket s j).countP Call.isObject = 16 * j := by
  induction j with
  | zero => intro s; simp [sweepCalls_zero]
  | succ j ih =>
    intro s
    simp only [sweepCalls_succ, List.countP_append, countP_isObject_objCalls, ih]
    omega

/-- C10. In `runUploadObj` with a non-empty bucket and a client: if every upload of the
sweep steps `0..j-1` and of runs `0..k-1` of step `j` succeeds and the upload of run `k`
of step `j` returns an error `e` (`j < 8`, `k < 16`), then the command returns `e`,
the history ends with that upload, `16 * j + k + 1` uploads were made in total, and the
lines printed are those of the steps `0..j-1`. -/
theorem C10_upload_error_aborts {ε α β : Type} [DivisionRing α] (g : Env ε α β)
    (bucket : String) (d : Nat → Nat → α) (j k : Nat) (e : ε) (fuel : Nat)
    (hb : bucket ≠ "") (hj : j < 8) (hk : k < 16) (hf : 9 ≤ fuel)
    (hn : g.newGcsClient [.newGcsClient] = .ok ())
    (hok : UploadsOk g bucket [.newGcsClient] d j k)
    (he : g.uploadObject ([.newGcsClient] ++ sweepCalls g bucket 0 j
      ++ objCalls bucket (sweepSize j) (g.makeRandBuf (sweepSize j)) 0 (k + 1)) = .error e) :
    runUploadObj g bucket fuel
        = some (⟨[.newGcsClient] ++ sweepCalls g bucket 0 j
                  ++ objCalls bucket (sweepSize j) (g.makeRandBuf (sweepSize j)) 0 (k + 1),
                (List.range j).map
                  (fun t => resultLine g.sqrt (sweepSize t) ((List.range 16).map (d t)))⟩,
                some (.external e))
    ∧ ([Call.newGcsClient] ++ sweepCalls g bucket 0 j
          ++ objCalls bucket (sweepSize j) (g.makeRandBuf (sweepSize j)) 0 (k + 1)).countP
        Call.isObject = 16 * j + k + 1
    ∧ ((List.range j).map
          (fun t => resultLine g.sqrt (sweepSize t) ((List.range 16).map (d t)))).map
        (fun l => l.sizeMiB) = (List.range j).map (fun t => (2 : Int) ^ t) := by
  refine ⟨?_, ?_, ?_⟩
  · have hsplit : (List.range' 0 8).map sweepSize
        = (List.range' 0 j).map sweepSize
            ++ sweepSize (0 + j) :: (List.range' (j + 1) (7 - j)).map sweepSize := by
      interval_cases j <;> rfl
    have hloop := sizeLoop_sweep (objSizeBody g bucket) 8 0 fuel
      (⟨[.newGcsClient], []⟩ : World α β) (by omega) (by omega)
    have hfail := forEachSize_obj_fail g bucket d k e hk j 0
      (⟨[.newGcsClient], []⟩ : World α β) ((List.range' (j + 1) (7 - j)).map sweepSize)
      (fun t m ht hm => by simpa using hok t m (Or.inl ⟨ht, hm⟩))
      (fun m hm => by simpa using hok j m (Or.inr ⟨rfl, hm⟩))
      (by simpa using he)
    have hs0 : sweepSize 0 = minSize := by decide
    rw [hs0] at hloop
    simp only [runUploadObj, hb, if_false, World.init, World.log, List.nil_append, hn,
      objSizeLoop, hloop, hsplit, hfail]
    simp [List.range_eq_range']
  · simp only [List.countP_append, countP_isObject_sweepCalls, countP_isObject_objCalls]
    simp only [Call.isObject, List.countP_cons, List.countP_nil]
    simp
    omega
  · simp only [List.map_map]
    apply List.map_congr_left
    intro t ht
    have ht8 : t < 8 := by
      have := List.mem_range.mp ht
      omega
    simp only [Function.comp, resultLine]
    interval_cases t <;> decide

/-! ## Bucket check and sweep bounds -/

/-- C5. With an empty bucket both commands return the error "destination bucket must be
specified" with no call made (no client constructed) and no line printed; with a
non-empty bucket neither command ever returns an `errors.New` value, so never that
configuration error. -/
theorem C5_empty_bucket_fails_fast {ε α β : Type} [DivisionRing α] (g : Env ε α β)
    (fuel : Nat) :
    runUploadObj g "" fuel
        = some (⟨[], []⟩, some (.errorsNew "destination bucket must be specified"))
    ∧ runUploadMultipartObj g "" fuel
        = some (⟨[], []⟩, some (.errorsNew "destination bucket must be specified"))
    ∧ (∀ (bucket : String) (w : World α β) (e : GoError ε), bucket ≠ "" →
        runUploadObj g bucket fuel = some (w, some e) → ∀ msg, e ≠ .errorsNew msg)
    ∧ (∀ (bucket : String) (w : World α β) (e : GoError ε), bucket ≠ "" →
        runUploadMultipartObj g bucket fuel = some (w, some e) →
          ∀ msg, e ≠ .errorsNew msg) := by
  refine ⟨by simp [runUploadObj, World.init], by simp [runUploadMultipartObj, World.init],
    ?_, ?_⟩
  · intro bucket w e hb h
    simp only [runUploadObj, hb, if_false] at h
    cases hn : g.newGcsClient ((World.init : World α β).log .newGcsClient).calls with
    | error x =>
      rw [hn] at h
      simp only [Option.some.injEq, Prod.mk.injEq] at h
      obtain ⟨-, rfl⟩ := h
      simp
    | ok u =>
      rw [hn] at h
      simp only [objSizeLoop] at h
      refine sizeLoop_error (objSizeBody g bucket) (fun e => ∀ msg, e ≠ .errorsNew msg) ?_
        _ _ _ _ _ h
      intro s w0 w1 e0 hbody
      obtain ⟨x, rfl⟩ := (objSizeBody_error g bucket s w0 w1 e0 hbody).2
      simp
  · intro bucket w e hb h
    simp only [runUploadMultipartObj, hb, if_false] at h
    cases hn : g.newGcsClient ((World.init : World α β).log .newGcsClient).calls with
    | error x =>
      rw [hn] at h
      simp only [Option.some.injEq, Prod.mk.injEq] at h
      obtain ⟨-, rfl⟩ := h
      simp
    | ok u =>
      rw [hn] at h
      simp only [mobjSizeLoop] at h
      refine sizeLoop_error (mobjSizeBody g bucket) (fun e => ∀ msg, e ≠ .errorsNew msg) ?_
        _ _ _ _ _ h
      intro s w0 w1 e0 hbody
      exact (mobjSizeBody_error g bucket s w0 w1 e0 hbody).2

/-- C6. With fuel for its 9 loop tests, the size loop of either driver, started at
`minSize`, ends, and it is the iteration of the loop body over the 8 sizes
1, 2, 4, ..., 128 MiB in this order, each once, stopping at the first error; for these
sizes `size/minSize` is 1, 2, 4, ..., 128; and a loop that ends without error has
printed exactly one line per size, in this order. -/
theorem C6_size_loop_visits_eight_sizes {ε α β : Type} [DivisionRing α] (g : Env ε α β)
    (bucket : String) (fuel : Nat) (w : World α β) (hf : 9 ≤ fuel) :
    objSizeLoop g bucket fuel minSize w
        = some (forEachSize (objSizeBody g bucket) sweepSizes w)
    ∧ mobjSizeLoop g bucket fuel minSize w
        = some (forEachSize (mobjSizeBody g bucket) sweepSizes w)
    ∧ sweepSizes = [1048576, 2097152, 4194304, 8388608, 16777216, 33554432, 67108864,
        134217728]
    ∧ sweepSizes.map (fun s => Int.tdiv s minSize) = [1, 2, 4, 8, 16, 32, 64, 128]
    ∧ (∀ w1, objSizeLoop g bucket fuel minSize w = some (w1, none) →
        w1.out.map (fun l => l.sizeMiB)
          = w.out.map (fun l => l.sizeMiB) ++ [1, 2, 4, 8, 16, 32, 64, 128])
    ∧ (∀ w1, mobjSizeLoop g bucket fuel minSize w = some (w1, none) →
        w1.out.map (fun l => l.sizeMiB)
          = w.out.map (fun l => l.sizeMiB) ++ [1, 2, 4, 8, 16, 32, 64, 128]) := by
  have hs0 : sweepSize 0 = minSize := by decide
  have hobj := sizeLoop_sweep (objSizeBody g bucket) 8 0 fuel w (by omega) (by omega)
  have hmobj := sizeLoop_sweep (mobjSizeBody g bucket) 8 0 fuel w (by omega) (by omega)
  rw [hs0, sweepSizes_eq] at hobj hmobj
  have hdiv : (sweepSizes.map (fun s => [Int.tdiv s minSize])).flatten
      = [1, 2, 4, 8, 16, 32, 64, 128] := by decide
  refine ⟨hobj, hmobj, by decide, by decide, ?_, ?_⟩
  · intro w1 h
    simp only [objSizeLoop, hobj, Option.some.injEq] at h
    have := forEachSize_ok (objSizeBody g bucket) (fun w => w.out.map (fun l => l.sizeMiB))
      (fun s => [Int.tdiv s minSize])
      (by
        intro s w0 w2 hb
        obtain ⟨ds, -, ho⟩ := (objSizeBody_ok g bucket s w0 w2 hb).2
        simp [ho, resultLine])
      sweepSizes w w1 h
    rw [hdiv] at this
    exact this
  · intro w1 h
    simp only [mobjSizeLoop, hmobj, Option.some.injEq] at h
    have := forEachSize_ok (mobjSizeBody g bucket) (fun w => w.out.map (fun l => l.sizeMiB))
      (fun s => [Int.tdiv s minSize])
      (by
        intro s w0 w2 hb
        obtain ⟨ds, -, ho⟩ := mobjSizeBody_ok g bucket s w0 w2 hb
        simp [ho, resultLine])
      sweepSizes w w1 h
    rw [hdiv] at this
    exact this

/-! ## Object names -/

theorem objName_data (size i : Int) :
    (objName size i).data
      = 'x' :: '-' :: ((toString (Int.tdiv size minSize)).data ++ '-' :: (toString i).data) := by
  simp [objName, String.data_append]

theorem sizeIndex_toString_inj : ∀ s ∈ sweepSizes, ∀ t ∈ sweepSizes,
    toString (Int.tdiv s minSize) = toString (Int.tdiv t minSize) → s = t := by
  decide

theorem sizeIndex_no_dash : ∀ s ∈ sweepSizes, '-' ∉ (toString (Int.tdiv s minSize)).data := by
  decide

theorem runIndex_toString_inj : ∀ i ∈ List.range 16, ∀ j ∈ List.range 16,
    toString (i : Int) = toString (j : Int) → i = j := by
  decide

theorem runIndex_no_dash : ∀ i ∈ List.range 16, '-' ∉ (toString (i : Int)).data := by
  decide

theorem objName_inj (s t : Int) (hs : s ∈ sweepSizes) (ht : t ∈ sweepSizes) (i j : Nat)
    (hi : i < 16) (hj : j < 16) (h : objName s i = objName t j) : s = t ∧ i = j := by
  have h1 := congrArg String.data h
  rw [objName_data, objName_data] at h1
  simp only [List.cons.injEq, true_and] at h1
  have h2 := (List.append_cons_inj_of_not_mem (sizeIndex_no_dash s hs)
    (runIndex_no_dash i (List.mem_range.mpr hi))).mp h1
  exact ⟨sizeIndex_toString_inj s hs t ht (String.ext h2.1),
    runIndex_toString_inj i (List.mem_range.mpr hi) j (List.mem_range.mpr hj)
      (String.ext h2.2.2)⟩

theorem sweepNames_nodup : sweepNames.Nodup := by
  have hsz : sweepSizes.Nodup := by decide
  simp only [sweepNames]
  rw [List.nodup_flatten]
  refine ⟨?_, ?_⟩
  · intro l hl
    obtain ⟨s, hs, rfl⟩ := List.mem_map.mp hl
    refine (List.nodup_range 16).map_on ?_
    intro i hi j hj hij
    exact (objName_inj s s hs hs i j (List.mem_range.mp hi) (List.mem_range.mp hj) hij).2
  · rw [List.pairwise_map]
    refine List.Pairwise.imp_of_mem ?_ hsz
    intro s t hs ht hst a ha hb
    obtain ⟨i, hi, rfl⟩ := List.mem_map.mp ha
    obtain ⟨j, hj, hij⟩ := List.mem_map.mp hb
    exact hst (objName_inj t s ht hs j i (List.mem_range.mp hj) (List.mem_range.mp hi) hij).1.symm

theorem filterMap_objectName_objCalls {β : Type} (bucket : String) (size : Int) (buf : β)
    (n : Nat) : ∀ i, (objCalls bucket size buf i n).filterMap Call.objectName?
      = (List.range' i n).map (fun (m : Nat) => objName size (m : Int)) := by
  induction n with
  | zero => intro i; simp [objCalls_zero]
  | succ n ih => intro i; simp [objCalls_succ, ih, objCall, Call.objectName?, List.range'_succ]

/-- C9. The object names of `runUploadObj` are injective in (size, run) over the 8 sweep
sizes and the 16 run indices; and a run of the command that ends without error has
uploaded to exactly the 128 names of the sweep, which are pairwise distinct. -/
theorem C9_object_names_injective {ε α β : Type} [DivisionRing α] (g : Env ε α β)
    (bucket : String) (fuel : Nat) (hf : 9 ≤ fuel) :
    (∀ s ∈ sweepSizes, ∀ t ∈ sweepSizes, ∀ i j : Nat, i < 16 → j < 16 →
        objName s i = objName t j → s = t ∧ i = j)
    ∧ (∀ w : World α β, runUploadObj g bucket fuel = some (w, none) →
        w.calls.filterMap Call.objectName? = sweepNames)
    ∧ sweepNames.length = 128
    ∧ sweepNames.Nodup := by
  refine ⟨fun s hs t ht i j hi hj h => objName_inj s t hs ht i j hi hj h, ?_,
    by simp [sweepNames, sweepSizes], sweepNames_nodup⟩
  intro w h
  by_cases hb : bucket = ""
  · simp [runUploadObj, hb] at h
  · simp only [runUploadObj, hb, if_false] at h
    cases hn : g.newGcsClient ((World.init : World α β).log .newGcsClient).calls with
    | error x =>
      rw [hn] at h
      simp at h
    | ok u =>
      rw [hn] at h
      simp only [objSizeLoop] at h
      have hs0 : sweepSize 0 = minSize := by decide
      have hloop := sizeLoop_sweep (objSizeBody g bucket) 8 0 fuel
        ((World.init : World α β).log .newGcsClient) (by omega) (by omega)
      rw [hs0, sweepSizes_eq, h, Option.some.injEq] at hloop
      have := forEachSize_ok (objSizeBody g bucket)
        (fun w => w.calls.filterMap Call.objectName?)
        (fun s => (List.range 16).map (fun (i : Nat) => objName s (i : Int)))
        (by
          intro s w0 w2 hbody
          have hc := (objSizeBody_ok g bucket s w0 w2 hbody).1
          simp only [hc, List.filterMap_append, filterMap_objectName_objCalls,
            List.range_eq_range'])
        sweepSizes _ w hloop.symm
      simpa [World.init, World.log, Call.objectName?, sweepNames] using this

/-! ## Statistics -/

theorem foldl_add_map {α : Type} [DivisionRing α] (f : α → α) (ds : List α) (a : α) :
    ds.foldl (fun acc d => acc + f d) a = a + (ds.map f).sum := by
  induction ds generalizing a with
  | nil => simp
  | cons d ds ih => simp [ih, add_assoc]

theorem statistics_eq_spec {α : Type} [Field α] (sqrt : α → α) (units : Int) (ds : List α) :
    statistics sqrt units ds
      = (specMeanSpeed (units : α) ds, specSigma sqrt (units : α) ds) := by
  have h1 : ds.foldl (fun acc d => acc + d) 0 = ds.sum := by
    have := foldl_add_map (fun d => d) ds 0
    simpa using this
  unfold statistics specSigma specMeanSpeed
  simp only [h1, foldl_add_map (fun d => ((units : α) / (ds.sum / (ds.length : α)) - (units : α) / d) * ((units : α) / (ds.sum / (ds.length : α)) - (units : α) / d))]
  congr 2
  simp only [zero_add, pow_two]
  rw [div_eq_mul_inv, mul_comm, one_div]

theorem sum_sq_shift (a b : ℝ) (xs : List ℝ) :
    (xs.map (fun x => (a - x) ^ 2)).sum
      = (xs.map (fun x => (x - b) ^ 2)).sum + (xs.length : ℝ) * (a - b) ^ 2
        + 2 * (a - b) * ((xs.length : ℝ) * b - xs.sum) := by
  induction xs with
  | nil => simp
  | cons x xs ih =>
    simp only [List.map_cons, List.sum_cons, List.length_cons, ih]
    push_cast
    ring

theorem sum_sq_mean (a : ℝ) (xs : List ℝ) (hne : xs ≠ []) :
    (xs.map (fun x => (a - x) ^ 2)).sum / (xs.length : ℝ)
      = (xs.map (fun x => (x - xs.sum / (xs.length : ℝ)) ^ 2)).sum / (xs.length : ℝ)
        + (a - xs.sum / (xs.length : ℝ)) ^ 2 := by
  have hn : (xs.length : ℝ) ≠ 0 := by
    have : xs.length ≠ 0 := by simpa using hne
    exact_mod_cast this
  rw [sum_sq_shift a (xs.sum / (xs.length : ℝ)) xs]
  field_simp
  ring

/-- The mean square deviation of the aggregator is the population variance of the per-run
speeds plus the squared distance between `meanSpeed` and the mean of the speeds. -/
theorem sigma_sq_decomp (units : ℝ) (ds : List ℝ) (hne : ds ≠ []) :
    (1 / (ds.length : ℝ)) * (ds.map (fun d => (specMeanSpeed units ds - units / d) ^ 2)).sum
      = (ds.map (fun d => (units / d - meanOfSpeeds units ds) ^ 2)).sum / (ds.length : ℝ)
        + (specMeanSpeed units ds - meanOfSpeeds units ds) ^ 2 := by
  have h := sum_sq_mean (specMeanSpeed units ds) (ds.map (fun d => units / d))
    (by simpa using hne)
  simp only [List.map_map, List.length_map] at h
  simp only [meanOfSpeeds]
  rw [one_div, mul_comm, ← div_eq_mul_inv]
  exact h

theorem popVariance_nonneg (units : ℝ) (ds : List ℝ) :
    0 ≤ (ds.map (fun d => (units / d - meanOfSpeeds units ds) ^ 2)).sum / (ds.length : ℝ) := by
  apply div_nonneg
  · apply List.sum_nonneg
    intro x hx
    obtain ⟨d, -, rfl⟩ := List.mem_map.mp hx
    positivity
  · positivity

theorem sigma_eq_popStdDev_iff (units : Int) (ds : List ℝ) (hne : ds ≠ []) :
    (statistics Real.sqrt units ds).2 = popStdDev Real.sqrt (units : ℝ) ds
      ↔ (statistics Real.sqrt units ds).1 = meanOfSpeeds (units : ℝ) ds := by
  rw [statistics_eq_spec]
  simp only [specSigma, popStdDev]
  rw [sigma_sq_decomp (units : ℝ) ds hne]
  have hB := popVariance_nonneg (units : ℝ) ds
  rw [Real.sqrt_inj (by positivity) hB]
  constructor
  · intro h
    have h2 : (specMeanSpeed (units : ℝ) ds - meanOfSpeeds (units : ℝ) ds) ^ 2 = 0 := by
      linarith
    have h3 := pow_eq_zero_iff (two_ne_zero) |>.mp h2
    linarith
  · intro h
    rw [h]
    simp

theorem popStdDev_lt_sigma (units : Int) (ds : List ℝ) (hne : ds ≠ [])
    (h : (statistics Real.sqrt units ds).1 ≠ meanOfSpeeds (units : ℝ) ds) :
    popStdDev Real.sqrt (units : ℝ) ds < (statistics Real.sqrt units ds).2 := by
  rw [statistics_eq_spec] at h ⊢
  simp only [specSigma, popStdDev]
  rw [sigma_sq_decomp (units : ℝ) ds hne]
  apply Real.sqrt_lt_sqrt (popVariance_nonneg (units : ℝ) ds)
  have h2 : specMeanSpeed (units : ℝ) ds - meanOfSpeeds (units : ℝ) ds ≠ 0 := sub_ne_zero.mpr h
  have h3 : 0 < (specMeanSpeed (units : ℝ) ds - meanOfSpeeds (units : ℝ) ds) ^ 2 := by
    positivity
  linarith

/-- The printed line, with the closed formulas in place of the loops. -/
theorem resultLine_eq_spec {α : Type} [Field α] (sqrt : α → α) (size : Int) (ds : List α) :
    resultLine sqrt size ds
      = { sizeMiB := Int.tdiv size minSize,
          meanSpeed := specMeanSpeed ((Int.tdiv size minSize : Int) : α) ds,
          sigma := specSigma sqrt ((Int.tdiv size minSize : Int) : α) ds } := by
  simp only [resultLine, statistics_eq_spec]

/-- A size of `runUploadMultipartObj` whose session is created and whose 16 chunks are
consistent prints its line, computed from the 16 durations in upload order. -/
theorem mobjSizeBody_forward {ε α β : Type} [DivisionRing α] (g : Env ε α β)
    (bucket uploadUrl : String) (size : Int) (d : Nat → α) (w : World α β)
    (h0 : 0 < size) (h1 : size ≤ maxSize)
    (hs : g.newUploadSession (w.calls ++ [sessionCall bucket size]) = .ok uploadUrl)
    (hc : ChunksConsistent g uploadUrl size (g.makeRandBuf size)
      (w.calls ++ [sessionCall bucket size]) d 16) :
    mobjSizeBody g bucket size w
      = (⟨w.calls ++ sessionCall bucket size
            :: chunkCalls uploadUrl size (g.makeRandBuf size) 0 16,
          w.out ++ [resultLine g.sqrt size ((List.range 16).map d)]⟩, none) := by
  have hpre : ∀ k, k ≤ 16 →
      chunkLoop g uploadUrl size (g.makeRandBuf size) k 0 ⟨0, []⟩
          ⟨w.calls ++ [sessionCall bucket size], w.out⟩
        = (⟨w.calls ++ [sessionCall bucket size]
              ++ chunkCalls uploadUrl size (g.makeRandBuf size) 0 k, w.out⟩,
            .ok ⟨(k : Int) * size, (List.range' 0 k).map d⟩) := by
    intro k hk
    have := chunkLoop_after g uploadUrl size (g.makeRandBuf size) d h0 h1 k 0 hk
      ⟨w.calls ++ [sessionCall bucket size], w.out⟩ (fun m hm => hc m (by omega))
    simpa [chunkLoop] using this
  have h16 := hpre 16 (le_refl _)
  have hr : runs.toNat = 16 := by decide
  simp only [sessionCall] at hs h16
  simp only [mobjSizeBody, World.log, hs, hr, h16, World.print, sessionCall]
  simp [List.range_eq_range']

/-- C7. Over the reals, for a non-empty sequence of durations the statistics code of
the drivers yields `meanSpeed = units / (sum d_i / N)` and
`sigma = sqrt ((1/N) * sum (meanSpeed - units/d_i)^2)` with a divisor `N ≠ 0`. In either
driver, a size that ends without error prints exactly one line, whose fields are
`size/minSize` and these two formulas at `units = size/minSize`, applied to a sequence of
exactly 16 durations, with the square root of the environment. When the 16 uploads
(chunks) of a size take `d 0, ..., d 15`, that sequence is `d 0, ..., d 15` in this
order, and with `Real.sqrt` as square root the sigma printed is the real root. -/
theorem C7_statistics_formula {ε β : Type} (units : Int) (ds : List ℝ) (hne : ds ≠ []) :
    statistics Real.sqrt units ds
        = (specMeanSpeed (units : ℝ) ds, specSigma Real.sqrt (units : ℝ) ds)
    ∧ (ds.length : ℝ) ≠ 0
    ∧ (∀ (g : Env ε ℝ β) (bucket : String) (size : Int) (w w1 : World ℝ β),
        objSizeBody g bucket size w = (w1, none) →
          ∃ ds1 : List ℝ, ds1.length = 16 ∧ w1.out = w.out ++ [resultLine g.sqrt size ds1]
            ∧ w1.out = w.out ++
              [{ sizeMiB := Int.tdiv size minSize,
                 meanSpeed := specMeanSpeed ((Int.tdiv size minSize : Int) : ℝ) ds1,
                 sigma := specSigma g.sqrt ((Int.tdiv size minSize : Int) : ℝ) ds1 }])
    ∧ (∀ (g : Env ε ℝ β) (bucket : String) (size : Int) (w w1 : World ℝ β),
        mobjSizeBody g bucket size w = (w1, none) →
          ∃ ds1 : List ℝ, ds1.length = 16 ∧ w1.out = w.out ++ [resultLine g.sqrt size ds1]
            ∧ w1.out = w.out ++
              [{ sizeMiB := Int.tdiv size minSize,
                 meanSpeed := specMeanSpeed ((Int.tdiv size minSize : Int) : ℝ) ds1,
                 sigma := specSigma g.sqrt ((Int.tdiv size minSize : Int) : ℝ) ds1 }])
    ∧ (∀ (g : Env ε ℝ β) (bucket : String) (size : Int) (w : World ℝ β) (d : Nat → ℝ),
        g.sqrt = Real.sqrt →
        (∀ m, m < 16 →
          g.uploadObject (w.calls ++ objCalls bucket size (g.makeRandBuf size) 0 (m + 1))
            = .ok (d m)) →
        objSizeBody g bucket size w
          = (⟨w.calls ++ objCalls bucket size (g.makeRandBuf size) 0 16,
              w.out ++
                [{ sizeMiB := Int.tdiv size minSize,
                   meanSpeed := specMeanSpeed ((Int.tdiv size minSize : Int) : ℝ)
                     ((List.range 16).map d),
                   sigma := specSigma Real.sqrt ((Int.tdiv size minSize : Int) : ℝ)
                     ((List.range 16).map d) }]⟩, none))
    ∧ (∀ (g : Env ε ℝ β) (bucket uploadUrl : String) (size : Int) (w : World ℝ β)
        (d : Nat → ℝ),
        g.sqrt = Real.sqrt → 0 < size → size ≤ maxSize →
        g.newUploadSession (w.calls ++ [sessionCall bucket size]) = .ok uploadUrl →
        ChunksConsistent g uploadUrl size (g.makeRandBuf size)
          (w.calls ++ [sessionCall bucket size]) d 16 →
        mobjSizeBody g bucket size w
          = (⟨w.calls ++ sessionCall bucket size
                :: chunkCalls uploadUrl size (g.makeRandBuf size) 0 16,
              w.out ++
                [{ sizeMiB := Int.tdiv size minSize,
                   meanSpeed := specMeanSpeed ((Int.tdiv size minSize : Int) : ℝ)
                     ((List.range 16).map d),
                   sigma := specSigma Real.sqrt ((Int.tdiv size minSize : Int) : ℝ)
                     ((List.range 16).map d) }]⟩, none)) := by
  refine ⟨statistics_eq_spec Real.sqrt units ds, ?_, ?_, ?_, ?_, ?_⟩
  · have : ds.length ≠ 0 := by simpa using hne
    exact_mod_cast this
  · intro g bucket size w w1 h
    obtain ⟨ds1, hl, ho⟩ := (objSizeBody_ok g bucket size w w1 h).2
    exact ⟨ds1, hl, ho, by rw [ho, resultLine_eq_spec]⟩
  · intro g bucket size w w1 h
    obtain ⟨ds1, hl, ho⟩ := mobjSizeBody_ok g bucket size w w1 h
    exact ⟨ds1, hl, ho, by rw [ho, resultLine_eq_spec]⟩
  · intro g bucket size w d hsq hu
    rw [objSizeBody_forward g bucket size d w hu, resultLine_eq_spec, hsq,
      List.range_eq_range']
  · intro g bucket uploadUrl size w d hsq h0 h1 hs hc
    rw [mobjSizeBody_forward g bucket uploadUrl size d w h0 h1 hs hc, resultLine_eq_spec,
      hsq]

/-- C8. Over the reals, for a non-empty sequence of positive durations and positive
units, the sigma of the aggregator equals the population standard deviation of the per-run
speeds `units/d_i` exactly when `meanSpeed` is the arithmetic mean of those speeds;
otherwise it is strictly larger; and on units 1 and durations 1, 3 the two differ. -/
theorem C8_sigma_vs_population_stddev (units : Int) (ds : List ℝ) (hne : ds ≠ [])
    (_hu : 0 < units) (_hpos : ∀ d ∈ ds, 0 < d) :
    ((statistics Real.sqrt units ds).2 = popStdDev Real.sqrt (units : ℝ) ds
        ↔ (statistics Real.sqrt units ds).1 = meanOfSpeeds (units : ℝ) ds)
    ∧ ((statistics Real.sqrt units ds).1 ≠ meanOfSpeeds (units : ℝ) ds →
        popStdDev Real.sqrt (units : ℝ) ds < (statistics Real.sqrt units ds).2)
    ∧ (statistics Real.sqrt 1 [1, 3]).2 ≠ popStdDev Real.sqrt ((1 : Int) : ℝ) [1, 3] := by
  refine ⟨sigma_eq_popStdDev_iff units ds hne, popStdDev_lt_sigma units ds hne, ?_⟩
  have hm : (statistics Real.sqrt 1 [1, 3]).1 ≠ meanOfSpeeds ((1 : Int) : ℝ) [1, 3] := by
    rw [statistics_eq_spec]
    simp only [specMeanSpeed, meanOfSpeeds]
    norm_num
  exact ne_of_gt (popStdDev_lt_sigma 1 [1, 3] (by simp) hm)

/-! ## Instances on the stubs -/

theorem goodEnv_consistent (k : Nat) (hk : k ≤ 16) :
    ChunksConsistent goodEnv "session" minSize (goodEnv.makeRandBuf minSize)
      ((World.init : World ℚ Int).calls ++ [sessionCall "b" minSize]) (fun _ => 1) k := by
  intro m hm
  have hm16 : m < 16 := by omega
  interval_cases m <;> exact ⟨rfl, rfl⟩

/-- Witness of C1: the faithful stub at 1 MiB from the empty history. -/
theorem C1_consistent_session_calls_witness :
    mobjSizeBody goodEnv "b" minSize World.init
        = (⟨(World.init : World ℚ Int).calls ++ sessionCall "b" minSize
              :: chunkCalls "session" minSize (goodEnv.makeRandBuf minSize) 0 16,
            (World.init : World ℚ Int).out
              ++ [resultLine goodEnv.sqrt minSize ((List.range 16).map (fun _ => (1 : ℚ)))]⟩,
          none) :=
  (C1_consistent_session_calls goodEnv "b" "session" minSize World.init (fun _ => 1)
    (by decide) (by decide) rfl (goodEnv_consistent 16 (le_refl _))).1

/-- Witness of C2: at 1 MiB from the empty history, the query after chunk 5 reports
offset 0 instead of 6 MiB. -/
theorem C2_offset_mismatch_witness :
    mobjSizeLoop (offsetWrongAt 13) "b" 1 minSize World.init
      = some (⟨(World.init : World ℚ Int).calls ++ [sessionCall "b" minSize]
                ++ chunkCalls "session" minSize ((offsetWrongAt 13).makeRandBuf minSize) 0 6,
              (World.init : World ℚ Int).out⟩,
              some (.errorf "unexpected offset: got 0, want 6291456")) :=
  C2_offset_mismatch (offsetWrongAt 13) "b" "session" minSize World.init (fun _ => 1) 5 1
    0 false 0 (by decide) (by decide) (by decide) rfl
    (by intro m hm; interval_cases m <;> exact ⟨rfl, rfl⟩) rfl rfl (by decide)

/-- Witness of C3: at 1 MiB from the empty history, the query after chunk 5 reports the
final flag `true`. -/
theorem C3_final_flag_mismatch_witness :
    mobjSizeLoop (flagWrongAt 13) "b" 1 minSize World.init
      = some (⟨(World.init : World ℚ Int).calls ++ [sessionCall "b" minSize]
                ++ chunkCalls "session" minSize ((flagWrongAt 13).makeRandBuf minSize) 0 6,
              (World.init : World ℚ Int).out⟩,
              some (.errorf "unexpected last part flag: got true, want false")) :=
  (C3_final_flag_mismatch (flagWrongAt 13) "b" "session" minSize World.init (fun _ => 1) 5 1
    true 0 (by decide) (by decide) (by decide) rfl
    (by intro m hm; interval_cases m <;> exact ⟨rfl, rfl⟩) rfl rfl (by decide)).1

/-- Witness of C4: at 1 MiB from the empty history, a failing session creation, a
failing upload of chunk 5 and a failing offset query after chunk 5. -/
theorem C4_capability_error_aborts_witness :
    mobjSizeLoop sessionFails "b" 1 minSize World.init
        = some (⟨(World.init : World ℚ Int).calls ++ [sessionCall "b" minSize],
                (World.init : World ℚ Int).out⟩, some (.external "boom"))
    ∧ mobjSizeLoop (partFailsAt 12) "b" 1 minSize World.init
        = some (⟨(World.init : World ℚ Int).calls ++ (sessionCall "b" minSize
                  :: (chunkCalls "session" minSize ((partFailsAt 12).makeRandBuf minSize) 0 5
                      ++ [partCall "session" minSize
                            ((partFailsAt 12).makeRandBuf minSize) 5])),
                (World.init : World ℚ Int).out⟩, some (.external "boom"))
    ∧ mobjSizeLoop (offsetFailsAt 13) "b" 1 minSize World.init
        = some (⟨(World.init : World ℚ Int).calls ++ (sessionCall "b" minSize
                  :: chunkCalls "session" minSize ((offsetFailsAt 13).makeRandBuf minSize) 0 6),
                (World.init : World ℚ Int).out⟩, some (.external "boom")) :=
  ⟨(C4_capability_error_aborts sessionFails "b" minSize World.init "boom" 0
      (by decide) (by decide)).1 rfl,
    (((C4_capability_error_aborts (partFailsAt 12) "b" minSize World.init "boom" 0
      (by decide) (by decide)).2 "session" (fun _ => 1) 5 (by decide) rfl
      (by intro m hm; interval_cases m <;> exact ⟨rfl, rfl⟩)).1 rfl).1,
    ((C4_capability_error_aborts (offsetFailsAt 13) "b" minSize World.init "boom" 0
      (by decide) (by decide)).2 "session" (fun _ => 1) 5 (by decide) rfl
      (by intro m hm; interval_cases m <;> exact ⟨rfl, rfl⟩)).2 1 rfl rfl⟩

/-- Witness of C5: with bucket "b" and a client that cannot be constructed, the error
returned is the one of the client. -/
theorem C5_empty_bucket_fails_fast_witness :
    runUploadObj clientFails "" 9
        = some (⟨[], []⟩, some (.errorsNew "destination bucket must be specified"))
    ∧ (GoError.external "boom" : GoError String)
        ≠ .errorsNew "destination bucket must be specified"
    ∧ (GoError.external "boom" : GoError String)
        ≠ .errorsNew "destination bucket must be specified" :=
  ⟨(C5_empty_bucket_fails_fast clientFails 9).1,
    (C5_empty_bucket_fails_fast clientFails 9).2.2.1 "b" ⟨[.newGcsClient], []⟩
      (.external "boom") (by decide) rfl "destination bucket must be specified",
    (C5_empty_bucket_fails_fast clientFails 9).2.2.2 "b" ⟨[.newGcsClient], []⟩
      (.external "boom") (by decide) rfl "destination bucket must be specified"⟩

/-- Witness of C6: the always succeeding stub with fuel 9 from the empty history. -/
theorem C6_size_loop_visits_eight_sizes_witness :
    9 ≤ 9
    ∧ objSizeLoop goodEnv "b" 9 minSize World.init
        = some (forEachSize (objSizeBody goodEnv "b") sweepSizes World.init)
    ∧ mobjSizeLoop goodEnv "b" 9 minSize World.init
        = some (forEachSize (mobjSizeBody goodEnv "b") sweepSizes World.init) :=
  ⟨by decide,
    (C6_size_loop_visits_eight_sizes goodEnv "b" 9 World.init (by decide)).1,
    (C6_size_loop_visits_eight_sizes goodEnv "b" 9 World.init (by decide)).2.1⟩

/-- Witness of C7: units 1 and the durations 1, 3; and at 1 MiB from the empty
history, on a stub with the real square root, uploads that take 1, 2, ..., 16 seconds
and chunks that take 2, 4, ..., 32 seconds. -/
theorem C7_statistics_formula_witness :
    ([1, 3] : List ℝ) ≠ []
    ∧ statistics Real.sqrt 1 [1, 3]
        = (specMeanSpeed ((1 : Int) : ℝ) [1, 3], specSigma Real.sqrt ((1 : Int) : ℝ) [1, 3])
    ∧ (objSizeBody (timedEnv Real.sqrt (fun n => (n : ℝ))) "b" minSize World.init).1.out
        = [{ sizeMiB := 1,
             meanSpeed := specMeanSpeed ((1 : Int) : ℝ)
               ((List.range 16).map (fun m => ((m + 1 : Nat) : ℝ))),
             sigma := specSigma Real.sqrt ((1 : Int) : ℝ)
               ((List.range 16).map (fun m => ((m + 1 : Nat) : ℝ))) }]
    ∧ (mobjSizeBody (timedEnv Real.sqrt (fun n => (n : ℝ))) "b" minSize World.init).1.out
        = [{ sizeMiB := 1,
             meanSpeed := specMeanSpeed ((1 : Int) : ℝ)
               ((List.range 16).map (fun m => ((2 * m + 2 : Nat) : ℝ))),
             sigma := specSigma Real.sqrt ((1 : Int) : ℝ)
               ((List.range 16).map (fun m => ((2 * m + 2 : Nat) : ℝ))) }] :=
  ⟨by simp, (@C7_statistics_formula String Int 1 [1, 3] (by simp)).1,
    congrArg (fun r => r.1.out)
      ((@C7_statistics_formula String Int 1 [1, 3] (by simp)).2.2.2.2.1
        (timedEnv Real.sqrt (fun n => (n : ℝ))) "b" minSize World.init
        (fun m => ((m + 1 : Nat) : ℝ)) rfl
        (by intro m hm; interval_cases m <;> rfl)),
    congrArg (fun r => r.1.out)
      ((@C7_statistics_formula String Int 1 [1, 3] (by simp)).2.2.2.2.2
        (timedEnv Real.sqrt (fun n => (n : ℝ))) "b" "session" minSize World.init
        (fun m => ((2 * m + 2 : Nat) : ℝ)) rfl (by decide) (by decide) rfl
        (by intro m hm; interval_cases m <;> exact ⟨rfl, rfl⟩))⟩

/-- Witness of C8: units 1 and the durations 1, 3. -/
theorem C8_sigma_vs_population_stddev_witness :
    ([1, 3] : List ℝ) ≠ [] ∧ (0 : Int) < 1 ∧ (∀ d ∈ ([1, 3] : List ℝ), 0 < d)
    ∧ ((statistics Real.sqrt 1 [1, 3]).2 = popStdDev Real.sqrt ((1 : Int) : ℝ) [1, 3]
        ↔ (statistics Real.sqrt 1 [1, 3]).1 = meanOfSpeeds ((1 : Int) : ℝ) [1, 3]) :=
  ⟨by simp, by decide, by simp,
    (C8_sigma_vs_population_stddev 1 [1, 3] (by simp) (by decide) (by simp)).1⟩

/-- Witness of C9: the always succeeding stub with fuel 9. -/
theorem C9_object_names_injective_witness :
    9 ≤ 9 ∧ sweepNames.Nodup :=
  ⟨by decide, (C9_object_names_injective goodEnv "b" 9 (by decide)).2.2.2⟩

/-- Witness of C10: the upload of run 5 of the third size (4 MiB) fails. -/
theorem C10_upload_error_aborts_witness :
    runUploadObj (uploadFailsAt 39) "b" 9
      = some (⟨[.newGcsClient] ++ sweepCalls (uploadFailsAt 39) "b" 0 2
                ++ objCalls "b" (sweepSize 2) ((uploadFailsAt 39).makeRandBuf (sweepSize 2)) 0 6,
              (List.range 2).map (fun t => resultLine (uploadFailsAt 39).sqrt (sweepSize t)
                ((List.range 16).map (fun _ => (1 : ℚ))))⟩,
              some (.external "boom")) :=
  (C10_upload_error_aborts (uploadFailsAt 39) "b" (fun _ _ => 1) 2 5 "boom" 9
    (by decide) (by decide) (by decide) (by decide) rfl
    (by
      rintro t m (⟨ht, hm⟩ | ⟨rfl, hm⟩)
      · interval_cases t <;> interval_cases m <;> rfl
      · interval_cases m <;> rfl)
    rfl).1

end GcsIntro
